import Mathlib

/-!
Verification of the Transaction Synchronization & Deduplication Engine of the
ai-calendar-assistant repository.

This file is a shallow embedding of the TypeScript sources
  src/transactions/transaction-sync.service.ts   (syncAll, syncSource)
  src/transactions/google-sheet.client.ts        (getLatestTransactionInfo,
                                                  getExistingIds, addTransactions)
  src/transactions/parsers/base.parser.ts        (Transaction, cleanDescription,
                                                  formatDate, formatAmount)
  src/transactions/parsers/brex.parser.ts        (fetchTransactions, createUniqueKey)
  src/transactions/parsers/stripe.parser.ts      (fetchTransactions)

Modelling conventions, used throughout:
  * JS strings are Lean String values.  JS string falsiness ("" is falsy,
    undefined is falsy) is modelled by `jsOr`; an absent optional string field
    is modelled by "".
  * A JS Date is carried by its calendar components (JSDate).  Comparison of
    two Date values compares epoch milliseconds in JS; for dates whose fields
    are in calendar range this order coincides with the numeric key
    `JSDate.keyNum` used here, and the runtime is taken to be in the UTC zone
    so that the local-time getters (getDate, getMonth, getFullYear,
    toDateString) and the UTC formatters (toISOString) agree.  An Invalid Date
    (NaN timestamp) is modelled by the value `none` of `Option JSDate`.
  * Monetary amounts are carried as exact integer cents: every amount in the
    source is produced by dividing an integer number of provider cents by 100,
    so `t.amount` in the source equals the model value divided by 100 and
    `toFixed(2)` is exact.
  * String helpers (trim, split, parseInt, padStart, slice(-2), toUpperCase,
    toLowerCase, the thousand-separator regex and the noise-pattern regex) are
    implemented directly on character lists so that all definitions are
    executable by kernel reduction.
-/

namespace TxSync

/-- JS `a || b` for strings: the empty string (and an absent field, also
    modelled by "") falls through to the right operand. -/
def jsOr (a b : String) : String := if a = "" then b else a

/-- Whitespace characters as treated by `trim` and the regex class `\s`
    (ASCII subset; the sources only ever contain these). -/
def isWs (c : Char) : Bool := c = ' ' || c = '\t' || c = '\n' || c = '\r'

/-- Character-level two-sided whitespace strip. -/
def trimChars (cs : List Char) : List Char :=
  ((cs.dropWhile isWs).reverse.dropWhile isWs).reverse

/-- Models `String.prototype.trim`. -/
def jsTrim (s : String) : String := String.mk (trimChars s.data)

/-- Models `String.prototype.toUpperCase` (ASCII). -/
def jsToUpper (s : String) : String := String.mk (s.data.map Char.toUpper)

/-- Models `String.prototype.toLowerCase` (ASCII). -/
def jsToLower (s : String) : String := String.mk (s.data.map Char.toLower)

/-- Models `String.prototype.split(sep)` for a one-character separator:
    "a//b" splits to ["a", "", "b"], "" splits to [""]. -/
def splitCharList (sep : Char) : List Char → List (List Char)
  | [] => [[]]
  | c :: cs =>
    if c = sep then [] :: splitCharList sep cs
    else
      match splitCharList sep cs with
      | [] => [[c]]
      | g :: gs => (c :: g) :: gs

def jsSplit (s : String) (sep : Char) : List String :=
  (splitCharList sep s.data).map String.mk

def leadingDigits (cs : List Char) : List Char := cs.takeWhile Char.isDigit

def digitsToNat (cs : List Char) : Nat :=
  cs.foldl (fun a c => a * 10 + (c.toNat - 48)) 0

/-- Models `parseInt(s, 10)`: skip leading whitespace, read an optional sign
    and then a maximal run of decimal digits; `none` models NaN (no digits). -/
def parseIntJS (s : String) : Option Int :=
  match s.data.dropWhile isWs with
  | '-' :: rest =>
    if leadingDigits rest = [] then none
    else some (-(digitsToNat (leadingDigits rest) : Int))
  | '+' :: rest =>
    if leadingDigits rest = [] then none
    else some ((digitsToNat (leadingDigits rest) : Int))
  | cs =>
    if leadingDigits cs = [] then none
    else some ((digitsToNat (leadingDigits cs) : Int))

/-- A JS Date carried by calendar components.  `month` is 1-based (the source
    always works with `getMonth() + 1`), `day` is `getDate()`, `msOfDay` the
    time of day in milliseconds. -/
structure JSDate where
  year : Int
  month : Int
  day : Int
  msOfDay : Nat
deriving DecidableEq, Repr

/-- Numeric key ordering JSDate values; for fields in calendar range this
    coincides with the epoch-millisecond order JS uses for `<` and `>`. -/
def JSDate.keyNum (d : JSDate) : Int :=
  ((d.year * 4096 + d.month) * 4096 + d.day) * 86400000 + (d.msOfDay : Int)

/-- `a < b` on Date values. -/
def JSDate.ltB (a b : JSDate) : Bool := decide (a.keyNum < b.keyNum)

/-- `a.toDateString() === b.toDateString()`: equality of the calendar day. -/
def JSDate.sameDay (a b : JSDate) : Bool :=
  a.year == b.year && a.month == b.month && a.day == b.day

/-- Midnight of the calendar day of `d` (the value `new Date(y, m, d)` built
    by the sheet-reading code). -/
def JSDate.dayOnly (d : JSDate) : JSDate := ⟨d.year, d.month, d.day, 0⟩

/-- Calendar-range fields: on this domain the model order and day-equality are
    faithful to the JS Date semantics. -/
def dateInRange (d : JSDate) : Prop :=
  1 ≤ d.month ∧ d.month ≤ 12 ∧ 1 ≤ d.day ∧ d.day ≤ 31 ∧ d.msOfDay < 86400000

instance (d : JSDate) : Decidable (dateInRange d) := by
  unfold dateInRange; infer_instance

/-- The shape of every anchor date produced by parsing real calendar rows:
    month and day in range, at midnight. -/
def anchorRange (p : JSDate) : Prop :=
  1 ≤ p.month ∧ p.month ≤ 12 ∧ 1 ≤ p.day ∧ p.day ≤ 31 ∧ p.msOfDay = 0

instance (p : JSDate) : Decidable (anchorRange p) := by
  unfold anchorRange; infer_instance

/-- Models `String(n).padStart(2, "0")`. -/
def pad2 (n : Int) : String :=
  if (toString n).length < 2 then "0" ++ toString n else toString n

/-- The last two characters; models `String(n).slice(-2)`. -/
def takeRight2 (s : String) : String :=
  String.mk (s.data.reverse.take 2).reverse

/-- The `dd/mm/yy` cell text built (identically) in syncSource and in
    addTransactions from getDate/getMonth/getFullYear. -/
def formatDateDDMMYY (d : JSDate) : String :=
  pad2 d.day ++ "/" ++ pad2 d.month ++ "/" ++ takeRight2 (toString d.year)

/-- Comma insertion on a reversed digit list: a separator lands before every
    later group of three digits, as the source regex
    `\B(?=(\d{3})+(?!\d))` does on the integer part. -/
def commasRev : List Char → Nat → List Char
  | [], _ => []
  | c :: rest, n =>
    if n ≠ 0 ∧ n % 3 = 0 then ',' :: c :: commasRev rest (n + 1)
    else c :: commasRev rest (n + 1)

def groupThousands (s : String) : String :=
  String.mk ((commasRev s.data.reverse 0).reverse)

/-- `amount.toFixed(2)` for an exact cents value. -/
def toFixed2 (cents : Int) : String :=
  (if cents < 0 then "-" else "") ++
    toString (cents.natAbs / 100) ++ "." ++ pad2 ((cents.natAbs % 100 : Nat) : Int)

/-- formatAmountWithCommas (defined identically in the sync service and the
    sheet client): `amount.toFixed(2)` with thousand separators inserted into
    the integer part. -/
def formatAmountWithCommas (cents : Int) : String :=
  (if cents < 0 then "-" else "") ++
    groupThousands (toString (cents.natAbs / 100)) ++ "." ++
    pad2 ((cents.natAbs % 100 : Nat) : Int)

inductive TxType where
  | income
  | expense
deriving DecidableEq, Repr

/-- The per-provider `brexData` bag attached by the Brex connector. -/
structure BrexData where
  originalId : String := ""
  dataType : String := ""
  paymentType : String := ""
  merchantName : String := ""
  originalDescription : String := ""
deriving DecidableEq, Repr

/-- The per-provider `stripeData` bag consulted by the Stripe sheet mapping
    (the Stripe connector never sets it, so every access falls back). -/
structure StripeData where
  captured : String := ""
  fee : String := ""
  status : String := ""
  cardId : String := ""
  customerId : String := ""
  customerEmail : String := ""
  invoiceId : String := ""
deriving DecidableEq, Repr

/-- The canonical Transaction of base.parser.ts together with the extra fields
    the Brex connector attaches and the sheet mapping reads.  Absent optional
    string fields are "". -/
structure Transaction where
  id : String
  date : Option JSDate
  amount : Int
  currency : String
  description : String
  type : TxType
  category : String := ""
  account : String := ""
  reference : String := ""
  memo : String := ""
  externalMemo : String := ""
  initiatedBy : String := ""
  paymentMethod : String := ""
  status : String := ""
  brexData : Option BrexData := none
  stripeData : Option StripeData := none
deriving DecidableEq, Repr

def brexOriginalDescription (t : Transaction) : String :=
  match t.brexData with
  | some b => b.originalDescription
  | none => ""

/-- The To/From cell computation; this block appears verbatim both in the
    syncSource duplicate check and in the addTransactions row mapping. -/
def toFrom (t : Transaction) : String :=
  if t.account = "Brex Card" then
    jsOr (brexOriginalDescription t) (jsOr t.description "GENERECT, INC.")
  else if t.memo ≠ "" then t.memo
  else jsOr t.description "GENERECT, INC."

/-- amountSign + formatAmountWithCommas(t.amount); also duplicated verbatim in
    syncSource and addTransactions. -/
def amountValue (t : Transaction) : String :=
  (if t.type = TxType.income then "" else "-") ++ formatAmountWithCommas t.amount

/-!  The Google sheet sink.  A sheet is its list of data rows (each row a list
of cell texts); the header row, which every reader skips (`for i = 1; ...`)
and every append writes below, is left out of the model. -/

abbrev Sheet := List (List String)

/-- `values[i][j]`: a missing cell reads as undefined, modelled "". -/
def cell (r : List String) (j : Nat) : String := r.getD j ""

/-- The dd/mm/yy parsing step of getLatestTransactionInfo applied to the
    trimmed date cell: split on "/", parseInt each part, require all three
    truthy (not NaN, not 0), then widen the two-digit year with the pivot 50
    and build `new Date(fullYear, month - 1, day)` (a midnight value; for
    finite arguments its timestamp is never NaN). -/
def parseDateCell (dateStr : String) : Option JSDate :=
  match ((jsSplit dateStr '/').map parseIntJS).getD 0 none,
        ((jsSplit dateStr '/').map parseIntJS).getD 1 none,
        ((jsSplit dateStr '/').map parseIntJS).getD 2 none with
  | some dv, some mv, some yv =>
    if dv ≠ 0 ∧ mv ≠ 0 ∧ yv ≠ 0 then
      some ⟨if yv < 50 then 2000 + yv else 1900 + yv, mv, dv, 0⟩
    else none
  | _, _, _ => none

/-- The written Brex row text of a transaction re-reads exactly: the dd/mm/yy
    cell re-parses to the same calendar day and the three compared cells are
    trim-stable (the sheet reader trims cells before comparing and parsing).
    This is what re-deriving the exact written strings requires; it holds for
    calendar years 1950..2049 other than 2000 whenever the chosen description
    string carries no leading or trailing whitespace. -/
def writeReadExact (t : Transaction) (d : JSDate) : Prop :=
  parseDateCell (formatDateDDMMYY d) = some d.dayOnly ∧
  jsTrim (formatDateDDMMYY d) = formatDateDDMMYY d ∧
  jsTrim (toFrom t) = toFrom t ∧
  jsTrim (amountValue t) = amountValue t

instance (t : Transaction) (d : JSDate) : Decidable (writeReadExact t d) := by
  unfold writeReadExact; infer_instance

/-- One collected entry of getLatestTransactionInfo: the raw (trimmed) date
    text, the trimmed description cell (column B) and the trimmed amount cell
    (column C). -/
structure ExRow where
  date : String
  description : String
  amount : String
deriving DecidableEq, Repr

/-- One loop iteration of getLatestTransactionInfo: a row contributes exactly
    when its first three cells are truthy and its date cell parses. -/
def parseRowBrex (r : List String) : Option (ExRow × JSDate) :=
  if cell r 0 ≠ "" ∧ cell r 1 ≠ "" ∧ cell r 2 ≠ "" then
    match parseDateCell (jsTrim (cell r 0)) with
    | some d => some (⟨jsTrim (cell r 0), jsTrim (cell r 1), jsTrim (cell r 2)⟩, d)
    | none => none
  else none

structure LatestInfo where
  latestDate : Option JSDate
  existingFromLatestDate : List ExRow
deriving Repr

/-- `if (!latestDate || actualDate > latestDate) latestDate = actualDate`. -/
def maxDateStep (acc : Option JSDate) (d : JSDate) : Option JSDate :=
  match acc with
  | none => some d
  | some l => if l.keyNum < d.keyNum then some d else some l

/-- getLatestTransactionInfo: for the Brex sheet, collect every parseable row,
    take the maximum parsed date, and keep the rows whose day equals that
    maximum; every other sheet name returns the empty anchor (as does the
    error path of the source, which catches and returns the same value). -/
def getLatestTransactionInfo (sheetName : String) (sheet : Sheet) : LatestInfo :=
  if sheetName = "Auto_input.Brex" then
    let all := sheet.filterMap parseRowBrex
    let latest := (all.map Prod.snd).foldl maxDateStep none
    ⟨latest,
     (all.filter fun p =>
       match latest with
       | some l => p.2.sameDay l
       | none => false).map Prod.fst⟩
  else ⟨none, []⟩

/-- getExistingIds: the Stripe sheet exposes its id column A; the Brex sheet
    exposes its trimmed External Memo column E; other names give the empty
    set (as does the error path).  The returned set is carried as the list of
    inserted elements; only membership is ever consulted. -/
def getExistingIds (sheetName : String) (sheet : Sheet) : List String :=
  if sheetName = "Auto_input.Stripe" then
    sheet.filterMap fun r => if cell r 0 ≠ "" then some (cell r 0) else none
  else if sheetName = "Auto_input.Brex" then
    sheet.filterMap fun r =>
      if cell r 4 ≠ "" then
        if jsTrim (cell r 4) ≠ "" then some (jsTrim (cell r 4)) else none
      else none
  else []

def sfield (t : Transaction) (f : StripeData → String) : String :=
  match t.stripeData with
  | some s => f s
  | none => ""

/-- formatDateTimeForSheets: toISOString with the T replaced by a space and
    the fractional seconds cut (a 19-character "YYYY-MM-DD HH:MM:SS"). -/
def formatDateTimeForSheets (d : JSDate) : String :=
  (let s := toString d.year
   if s.length < 4 then String.mk (List.replicate (4 - s.length) '0') ++ s else s) ++
  "-" ++ pad2 d.month ++ "-" ++ pad2 d.day ++ " " ++
  pad2 ((d.msOfDay / 3600000 : Nat) : Int) ++ ":" ++
  pad2 (((d.msOfDay / 60000) % 60 : Nat) : Int) ++ ":" ++
  pad2 (((d.msOfDay / 1000) % 60 : Nat) : Int)

/-- The A..W row written for one Stripe transaction (only defined for a valid
    date: toISOString throws on an Invalid Date). -/
def stripeSheetRow (t : Transaction) (d : JSDate) : List String :=
  [ t.id, formatDateTimeForSheets d, toFixed2 t.amount, "0.00",
    jsToLower t.currency, jsOr (sfield t StripeData.captured) "TRUE",
    toFixed2 t.amount, "0.00", jsToLower t.currency, "", t.description,
    jsOr (sfield t StripeData.fee) "0.33", "", "GENERECT, INC.",
    jsOr (sfield t StripeData.status) "Paid", "Payment complete.", "0",
    sfield t StripeData.cardId, sfield t StripeData.customerId, "",
    jsOr (sfield t StripeData.customerEmail) "api_parser@generect.com",
    sfield t StripeData.invoiceId, "" ]

/-- The Stripe row batch; an invalid date in the batch makes the whole row
    build throw (caught by addTransactions). -/
def stripeSheetRows : List Transaction → Option (List (List String))
  | [] => some []
  | t :: ts =>
    match t.date with
    | none => none
    | some d =>
      match stripeSheetRows ts with
      | none => none
      | some rows => some (stripeSheetRow t d :: rows)

def isFinalized (t : Transaction) : Bool :=
  t.status == "" || t.status == "Finalized" || t.status == "SETTLED" ||
    t.status == "COMPLETED" || t.status == "PROCESSED"

/-- Memo column D: originalDescription for card transactions, else the memo. -/
def memoField (t : Transaction) : String :=
  if t.account = "Brex Card" then brexOriginalDescription t else t.memo

/-- The A..J row written for one Brex transaction; a transaction whose date is
    invalid maps to null and is dropped from the written rows. -/
def brexSheetRow (t : Transaction) : Option (List String) :=
  match t.date with
  | none => none
  | some d => some
    [ formatDateDDMMYY d, toFrom t, amountValue t, memoField t, "", "",
      jsOr t.initiatedBy "Client", jsOr t.paymentMethod "ACH/Wire",
      jsOr t.status "Finalized", if isFinalized t then "TRUE" else "FALSE" ]

/-- The fallback row format for any other sheet name.  This branch is dead on
    every sync path (syncSource only ever passes the two Auto_input names);
    the date and amount cells carry the serialized raw values. -/
def defaultSheetRow (t : Transaction) : List String :=
  [ t.id,
    (match t.date with | some d => formatDateTimeForSheets d | none => "Invalid Date"),
    toFixed2 t.amount, t.currency, t.description,
    (match t.type with | TxType.income => "income" | TxType.expense => "expense"),
    t.category, t.account, t.reference ]

/-- addTransactions.  `appendOk` is whether the external append call succeeds;
    on any exception (a failed append, or a throwing row build) the source
    catches and returns 0 with the sheet unchanged.  On success it returns
    `transactions.length` — not the number of rows appended. -/
def addTransactions (sheetName : String) (txs : List Transaction) (sheet : Sheet)
    (appendOk : Bool) : Nat × Sheet :=
  if txs.length = 0 then (0, sheet)
  else
    match
      (if sheetName = "Auto_input.Stripe" then stripeSheetRows txs
       else if sheetName = "Auto_input.Brex" then some (txs.filterMap brexSheetRow)
       else some (txs.map defaultSheetRow)) with
    | none => (0, sheet)
    | some rows => if appendOk then (txs.length, sheet ++ rows) else (0, sheet)

/-!  The sync service. -/

structure SyncResult where
  source : String
  new : Nat
  total : Nat
  errors : Option (List String) := none
deriving DecidableEq, Repr

/-- The sink operations a syncSource run performs, in order. -/
inductive SinkEffect where
  | readLatestInfo
  | readExistingIds
  | append
deriving DecidableEq, Repr

/-- The Strategy-B filter predicate of syncSource (Brex branch).  An invalid
    transaction date compares false against latestDate and its date string is
    "Invalid Date", so such a transaction passes the filter. -/
def brexKeep (info : LatestInfo) (t : Transaction) : Bool :=
  match info.latestDate with
  | none => true
  | some l =>
    match t.date with
    | none => true
    | some d =>
      if d.ltB l then false
      else if d.sameDay l then
        ! info.existingFromLatestDate.any fun e =>
            e.date == formatDateDDMMYY d && e.amount == amountValue t &&
              e.description == toFrom t
      else true

/-- The Strategy-A filter predicate of syncSource (non-Brex branch). -/
def idKeep (existingIds : List String) (t : Transaction) : Bool :=
  ! existingIds.contains t.id

/-- The sort comparator key: `new Date(t.date).getTime()`.  For an invalid
    date the comparator yields NaN and the relative order is unspecified; the
    model places such transactions at key 0. -/
def sortDateKey (t : Transaction) : Int :=
  match t.date with
  | some d => d.keyNum
  | none => 0

/-- `newTransactions.sort((a, b) => dateA.getTime() - dateB.getTime())`:
    a stable ascending sort by date. -/
def sortByDate (txs : List Transaction) : List Transaction :=
  txs.insertionSort fun a b => sortDateKey a ≤ sortDateKey b

/-- syncSource, given the list the parser fetch resolved to.  Returns the
    SyncResult, the updated sheet, and the trace of sink operations. -/
def syncSource (sourceName : String) (fetched : List Transaction)
    (sheetName : String) (sheet : Sheet) (appendOk : Bool) :
    SyncResult × Sheet × List SinkEffect :=
  if fetched.length = 0 then
    ({ source := sourceName, new := 0, total := 0 }, sheet, [])
  else
    let step : List Transaction × List SinkEffect :=
      if sheetName = "Auto_input.Brex" then
        (fetched.filter (brexKeep (getLatestTransactionInfo sheetName sheet)),
         [SinkEffect.readLatestInfo])
      else
        (fetched.filter (idKeep (getExistingIds sheetName sheet)),
         [SinkEffect.readExistingIds])
    if step.1.length = 0 then
      ({ source := sourceName, new := 0, total := fetched.length }, sheet, step.2)
    else
      let added := addTransactions sheetName (sortByDate step.1) sheet appendOk
      ({ source := sourceName, new := added.1, total := fetched.length },
       added.2, step.2 ++ [SinkEffect.append])

/-- The two sheets the two configured sources write to. -/
structure SheetsState where
  brex : Sheet
  stripe : Sheet
deriving DecidableEq, Repr

/-- The environment of one syncAll call: what each parser fetch resolves to
    (`Except.error` models a thrown connector error) and whether the sheet
    append call for each source succeeds. -/
structure SyncEnv where
  fetchResult : String → Except String (List Transaction)
  appendOk : String → Bool

/-- syncAll: iterate the requested sources; brex and stripe run syncSource
    against their sheets, an unknown name is skipped with no result, and a
    thrown fetch is caught at the source boundary and converted into a
    SyncResult with the one-element error list. -/
def syncAll (env : SyncEnv) (st : SheetsState) :
    List String → List SyncResult × SheetsState
  | [] => ([], st)
  | s :: rest =>
    if s = "brex" then
      match env.fetchResult "brex" with
      | Except.error msg =>
        let r := syncAll env st rest
        ({ source := "brex", new := 0, total := 0, errors := some [msg] } :: r.1, r.2)
      | Except.ok txs =>
        let one := syncSource "brex" txs "Auto_input.Brex" st.brex (env.appendOk "brex")
        let r := syncAll env { st with brex := one.2.1 } rest
        (one.1 :: r.1, r.2)
    else if s = "stripe" then
      match env.fetchResult "stripe" with
      | Except.error msg =>
        let r := syncAll env st rest
        ({ source := "stripe", new := 0, total := 0, errors := some [msg] } :: r.1, r.2)
      | Except.ok txs =>
        let one := syncSource "stripe" txs "Auto_input.Stripe" st.stripe (env.appendOk "stripe")
        let r := syncAll env { st with stripe := one.2.1 } rest
        (one.1 :: r.1, r.2)
    else
      syncAll env st rest

/-!  The connectors. -/

/-- BaseParser.cleanDescription: "" for a falsy input, otherwise trim and
    collapse every whitespace run to one space. -/
def collapseWsAux : Bool → List Char → List Char
  | _, [] => []
  | inWs, c :: cs =>
    if isWs c then
      if inWs then collapseWsAux true cs else ' ' :: collapseWsAux true cs
    else c :: collapseWsAux false cs

def cleanDescription (s : String) : String :=
  if s = "" then "" else String.mk (collapseWsAux false (trimChars s.data))

/-- Caseless literal match at the head of a character list, returning the
    rest on success. -/
def matchCaseless : List Char → List Char → Option (List Char)
  | [], rest => some rest
  | _ :: _, [] => none
  | l :: ls, c :: rest => if c.toLower = l then matchCaseless ls rest else none

/-- The noise regex of both Brex loops, matched at one position:
    Payment, then `\s*`, an en dash or hyphen, `\s*`, Thank, `\s*`, you!
    (case-insensitive). -/
def matchThanksAt (cs : List Char) : Bool :=
  match matchCaseless "payment".data cs with
  | none => false
  | some r1 =>
    match r1.dropWhile isWs with
    | [] => false
    | c :: r3 =>
      if c = '–' ∨ c = '-' then
        match matchCaseless "thank".data (r3.dropWhile isWs) with
        | none => false
        | some r5 => (matchCaseless "you!".data (r5.dropWhile isWs)).isSome
      else false

def hasThanksPattern : List Char → Bool
  | [] => false
  | c :: cs => matchThanksAt (c :: cs) || hasThanksPattern cs

/-- `description.match(/Payment\s*[–-]\s*Thank\s*you!/gi)` is truthy. -/
def isPaymentThankYou (s : String) : Bool := hasThanksPattern s.data

/-- The value found in a record's date field chain: absent, an unparseable
    string (Invalid Date), or a parsed instant. -/
inductive DateVal where
  | missing
  | invalid
  | ok (d : JSDate)
deriving DecidableEq, Repr

/-- One item returned by a Brex cash or transfers endpoint.  String fields
    model the fields the loop reads; "" models an absent field; `dateVal` is
    the resolved value of the endpoint's date-field fallback chain. -/
structure BrexRawTx where
  id : String
  status : String := ""
  amountCents : Int := 0
  currency : String := ""
  dateVal : DateVal := DateVal.missing
  display_name : String := ""
  description : String := ""
  counterparty_name : String := ""
  memo : String := ""
  external_memo : String := ""
  payment_type : String := ""
  initiator_type : String := ""
  creator_user_id : String := ""
deriving DecidableEq, Repr

/-- One item returned by the Brex card endpoint. -/
structure BrexCardRawTx where
  id : String
  status : String := ""
  amountCents : Int := 0
  currency : String := ""
  dateVal : DateVal := DateVal.missing
  merchant_raw_descriptor : String := ""
  merchant_name : String := ""
  description : String := ""
  memo : String := ""
  external_memo : String := ""
deriving DecidableEq, Repr

/-- The cash/transfer loop body of BrexParser.fetchTransactions: the record is
    dropped for a FAILED or CANCELLED status, a missing or invalid date, a
    zero amount, or the noise pattern; otherwise it normalizes to exactly one
    Transaction.  Amounts arrive in cents (`tx.amount.amount`) and the source
    stores `Math.abs(cents / 100)` with the sign moved into the type. -/
def normBrexCash (isTransfer : Bool) (tx : BrexRawTx) : Option Transaction :=
  if tx.status = "FAILED" ∨ tx.status = "CANCELLED" then none
  else
    match tx.dateVal with
    | DateVal.missing => none
    | DateVal.invalid => none
    | DateVal.ok date =>
      let amount : Int := |tx.amountCents|
      let isExpense := 0 < tx.amountCents
      let isClientInitiated := tx.initiator_type = "USER" ∨ tx.creator_user_id ≠ ""
      let description :=
        if isTransfer then jsOr tx.display_name (jsOr tx.description "Transfer")
        else jsOr tx.counterparty_name (jsOr tx.description "Cash Transaction")
      let memo :=
        if isTransfer then
          if isClientInitiated then "" else jsOr tx.external_memo tx.memo
        else jsOr tx.external_memo tx.memo
      let paymentMethod :=
        if tx.payment_type = "ACH" then "ACH"
        else if tx.payment_type = "WIRE" then "Wire"
        else if tx.payment_type = "INTERNATIONAL_WIRE" then "Wire"
        else if isTransfer ∧ tx.payment_type = "BILL_PAY" then "Bill Pay"
        else "ACH/Wire"
      if amount = 0 then none
      else if isPaymentThankYou description then none
      else some
        { id := "brex_" ++ (if isTransfer then "transfer" else "cash") ++ "_" ++ tx.id,
          date := some date,
          amount := amount,
          currency := jsOr tx.currency "USD",
          description := cleanDescription description,
          type := if isExpense then TxType.expense else TxType.income,
          category := if isTransfer then "Transfer" else "Cash Transaction",
          account := "Brex",
          reference := tx.id,
          memo := memo,
          externalMemo := tx.external_memo,
          initiatedBy := if isClientInitiated then "Client" else "Brex",
          paymentMethod := paymentMethod,
          status := jsOr tx.status "Finalized",
          brexData := some
            { originalId := tx.id,
              dataType := if isTransfer then "transfer" else "cash",
              paymentType := tx.payment_type } }

/-- The card loop body of BrexParser.fetchTransactions: dropped only for a
    missing or invalid date or the noise pattern (no status or zero-amount
    skip); always an expense. -/
def normBrexCard (tx : BrexCardRawTx) : Option Transaction :=
  match tx.dateVal with
  | DateVal.missing => none
  | DateVal.invalid => none
  | DateVal.ok date =>
    let amount : Int := |tx.amountCents|
    let description0 :=
      jsOr tx.merchant_raw_descriptor
        (jsOr tx.merchant_name (jsOr tx.description "Card Transaction"))
    let description := if tx.memo ≠ "" then tx.memo else description0
    if isPaymentThankYou description then none
    else some
      { id := "brex_card_" ++ tx.id,
        date := some date,
        amount := amount,
        currency := jsOr tx.currency "USD",
        description := cleanDescription description,
        type := TxType.expense,
        category := "Card Transaction",
        account := "Brex Card",
        reference := tx.id,
        memo := jsOr tx.external_memo tx.memo,
        externalMemo := tx.external_memo,
        initiatedBy := "Brex",
        paymentMethod := "Card",
        status := jsOr tx.status "Finalized",
        brexData := some
          { originalId := tx.id,
            dataType := "card",
            merchantName := tx.merchant_name,
            originalDescription := tx.description } }

/-- What the four Brex HTTP requests resolve to; `Except.error` models a
    request failure (caught by the source, which then moves on). -/
structure BrexApiEnv where
  cashPrimary : Except Unit (List BrexRawTx)
  cash : Except Unit (List BrexRawTx)
  transfers : Except Unit (List BrexRawTx)
  card : Except Unit (List BrexCardRawTx)

def nonemptyOk {α : Type} (r : Except Unit (List α)) : Option (List α) :=
  match r with
  | Except.ok items => if 0 < items.length then some items else none
  | Except.error _ => none

/-- The endpoint fallback loop: the first of cash/primary, cash, transfers
    whose request succeeds with a nonempty item list is processed and the
    loop breaks; the Boolean is `endpoint.includes("transfers")`. -/
def brexCashAttempt (env : BrexApiEnv) : Option (Bool × List BrexRawTx) :=
  match nonemptyOk env.cashPrimary with
  | some items => some (false, items)
  | none =>
    match nonemptyOk env.cash with
    | some items => some (false, items)
    | none =>
      match nonemptyOk env.transfers with
      | some items => some (true, items)
      | none => none

namespace BrexParser

/-- BrexParser.fetchTransactions: normalize the winning cash/transfer item
    list, then the card items (none when that request fails), and sort the
    merged list ascending by date. -/
def fetchTransactions (env : BrexApiEnv) : List Transaction :=
  let cashTxs :=
    match brexCashAttempt env with
    | some p => p.2.filterMap (normBrexCash p.1)
    | none => []
  let cardTxs :=
    match env.card with
    | Except.ok items => items.filterMap normBrexCard
    | Except.error _ => []
  sortByDate (cashTxs ++ cardTxs)

/-- BrexParser.createUniqueKey.  Defined by the source but never invoked by
    fetchTransactions or by any caller. -/
def createUniqueKey (t : Transaction) : String :=
  let formattedDate :=
    match t.date with
    | some d => formatDateDDMMYY d
    | none => "NaN/NaN/NaN"
  match t.brexData with
  | some b => if b.originalId ≠ "" then b.originalId
              else formattedDate ++ "_" ++ toFixed2 t.amount ++ "_" ++ t.memo
  | none => formattedDate ++ "_" ++ toFixed2 t.amount ++ "_" ++ t.memo

end BrexParser

/-- One Stripe charge as read by the loop (`created` in unix seconds,
    `amount` in cents). -/
structure StripeChargeRaw where
  id : String
  created : Int
  amountCents : Nat
  currency : String
  description : String := ""
  receipt_url : String := ""
deriving DecidableEq, Repr

/-- One Stripe payout as read by the loop. -/
structure StripePayoutRaw where
  id : String
  created : Int
  amountCents : Nat
  currency : String
  description : String := ""
deriving DecidableEq, Repr

/-- BaseParser.formatAmount: the cents value is divided by 100 for USD and
    EUR, otherwise passed through.  The result is returned in the exact-cents
    encoding of this model (source value times 100). -/
def formatAmountCents (amount : Nat) (currency : String) : Int :=
  if currency = "USD" ∨ currency = "EUR" then (amount : Int) else (amount : Int) * 100

/-- Calendar date of a day number (days since 1970-01-01), the civil-from-days
    algorithm used by every Gregorian date library.  Only used to model
    `formatDate(new Date(secs * 1000))`; no proof unfolds it. -/
def civilFromDays (z0 : Int) : Int × Int × Int :=
  let z := z0 + 719468
  let era := z.fdiv 146097
  let doe := (z - era * 146097).toNat
  let yoe := (doe - doe / 1460 + doe / 36524 - doe / 146096) / 365
  let doy := doe - (365 * yoe + yoe / 4 - yoe / 100)
  let mp := (5 * doy + 2) / 153
  let d := doy - (153 * mp + 2) / 5 + 1
  let m := if mp < 10 then mp + 3 else mp - 9
  ((yoe : Int) + era * 400 + (if m ≤ 2 then 1 else 0), (m : Int), (d : Int))

/-- BaseParser.formatDate on `new Date(secs * 1000)`: the UTC calendar day of
    the instant (the source keeps it as a "YYYY-MM-DD" string; reparsed by
    `new Date` it denotes that day's UTC midnight, which this value is). -/
def epochSecsToJSDate (secs : Int) : JSDate :=
  let c := civilFromDays (secs.fdiv 86400)
  ⟨c.1, c.2.1, c.2.2, 0⟩

namespace StripeParser

/-- StripeParser.fetchTransactions: every listed charge becomes an income
    transaction, then every listed payout is appended as an expense whose
    amount is the negated formatted payout amount. -/
def fetchTransactions (charges : List StripeChargeRaw)
    (payouts : List StripePayoutRaw) : List Transaction :=
  (charges.map fun c =>
    { id := c.id,
      date := some (epochSecsToJSDate c.created),
      amount := formatAmountCents c.amountCents (jsToUpper c.currency),
      currency := jsToUpper c.currency,
      description := cleanDescription (jsOr c.description "Stripe charge"),
      type := TxType.income,
      category := "Payment Processing",
      account := "Stripe",
      reference := c.receipt_url : Transaction }) ++
  (payouts.map fun p =>
    { id := "payout_" ++ p.id,
      date := some (epochSecsToJSDate p.created),
      amount := -(formatAmountCents p.amountCents (jsToUpper p.currency)),
      currency := jsToUpper p.currency,
      description := "Stripe payout - " ++ jsOr p.description "Automatic",
      type := TxType.expense,
      category := "Bank Transfer",
      account := "Stripe",
      reference := p.id : Transaction })

end StripeParser

/-!  Helper lemmas. -/

theorem str_of_length_zero {s : String} (h : s.length = 0) : s = "" := by
  cases s with
  | mk data => simp [String.length] at h; simp [h]

theorem str_append_eq_empty {a b : String} (h : a ++ b = "") : a = "" ∧ b = "" := by
  have h2 := congrArg String.length h
  simp at h2
  exact ⟨str_of_length_zero h2.1, str_of_length_zero h2.2⟩

theorem pad2_ne_empty (n : Int) : pad2 n ≠ "" := by
  unfold pad2
  split
  · intro h
    exact absurd (str_append_eq_empty h).1 (by decide)
  · next hlen =>
    intro h
    rw [h] at hlen
    simp at hlen

theorem formatDateDDMMYY_ne_empty (d : JSDate) : formatDateDDMMYY d ≠ "" := by
  unfold formatDateDDMMYY
  intro h
  exact pad2_ne_empty d.day
    (str_append_eq_empty (str_append_eq_empty
      (str_append_eq_empty (str_append_eq_empty h).1).1).1).1

theorem formatAmountWithCommas_ne_empty (c : Int) : formatAmountWithCommas c ≠ "" := by
  unfold formatAmountWithCommas
  intro h
  exact pad2_ne_empty _ (str_append_eq_empty h).2

theorem amountValue_ne_empty (t : Transaction) : amountValue t ≠ "" := by
  unfold amountValue
  intro h
  exact formatAmountWithCommas_ne_empty t.amount (str_append_eq_empty h).2

theorem toFrom_ne_empty (t : Transaction) : toFrom t ≠ "" := by
  unfold toFrom jsOr
  split
  · split
    · split
      · simp
      · assumption
    · assumption
  · split
    · assumption
    · split
      · simp
      · assumption

theorem parseDateCell_ms {s : String} {d : JSDate} (h : parseDateCell s = some d) :
    d.msOfDay = 0 := by
  unfold parseDateCell at h
  split at h
  · split at h
    · simp at h
      rw [← h]
    · exact absurd h (by simp)
  · exact absurd h (by simp)

theorem parseRowBrex_ms {r : List String} {e : ExRow} {p : JSDate}
    (h : parseRowBrex r = some (e, p)) : p.msOfDay = 0 := by
  unfold parseRowBrex at h
  split at h
  · split at h
    · next heq =>
      simp at h
      exact h.2 ▸ parseDateCell_ms heq
    · exact absurd h (by simp)
  · exact absurd h (by simp)

theorem parseRowBrex_of_cells {r : List String} {p : JSDate}
    (h0 : cell r 0 ≠ "") (h1 : cell r 1 ≠ "") (h2 : cell r 2 ≠ "")
    (hp : parseDateCell (jsTrim (cell r 0)) = some p) :
    parseRowBrex r =
      some (⟨jsTrim (cell r 0), jsTrim (cell r 1), jsTrim (cell r 2)⟩, p) := by
  unfold parseRowBrex
  rw [if_pos ⟨h0, h1, h2⟩, hp]

theorem keyNum_dayOnly (d : JSDate) :
    d.keyNum = d.dayOnly.keyNum + (d.msOfDay : Int) := by
  simp [JSDate.keyNum, JSDate.dayOnly]

/-- Anchors at midnight with calendar-range month and day are separated by at
    least one full day of key distance; in particular the key is injective on
    them. -/
theorem anchorRange_keyNum_inj {a b : JSDate}
    (ha : anchorRange a) (hb : anchorRange b) (h : a.keyNum = b.keyNum) :
    a = b := by
  obtain ⟨ha1, ha2, ha3, ha4, ha5⟩ := ha
  obtain ⟨hb1, hb2, hb3, hb4, hb5⟩ := hb
  simp [JSDate.keyNum, ha5, hb5] at h
  cases a; cases b
  simp_all
  omega

theorem foldl_maxDateStep_some (l : List JSDate) :
    ∀ a : JSDate,
      ∃ L, l.foldl maxDateStep (some a) = some L ∧ (L = a ∨ L ∈ l) ∧
        a.keyNum ≤ L.keyNum ∧ ∀ d ∈ l, d.keyNum ≤ L.keyNum := by
  induction l with
  | nil =>
    intro a
    exact ⟨a, rfl, Or.inl rfl, le_refl _, by simp⟩
  | cons b bs ih =>
    intro a
    by_cases h : a.keyNum < b.keyNum
    · obtain ⟨L, e1, e2, e3, e4⟩ := ih b
      refine ⟨L, ?_, ?_, ?_, ?_⟩
      · simpa [maxDateStep, h] using e1
      · rcases e2 with h2 | h2
        · exact Or.inr (by simp [h2])
        · exact Or.inr (List.mem_cons_of_mem _ h2)
      · exact le_of_lt (lt_of_lt_of_le h e3)
      · intro d hd
        rcases List.mem_cons.mp hd with h3 | h3
        · exact h3 ▸ e3
        · exact e4 d h3
    · obtain ⟨L, e1, e2, e3, e4⟩ := ih a
      refine ⟨L, ?_, ?_, ?_, ?_⟩
      · simpa [maxDateStep, h] using e1
      · rcases e2 with h2 | h2
        · exact Or.inl h2
        · exact Or.inr (List.mem_cons_of_mem _ h2)
      · exact e3
      · intro d hd
        rcases List.mem_cons.mp hd with h3 | h3
        · subst h3
          exact le_trans (le_of_not_lt h) e3
        · exact e4 d h3

theorem foldl_maxDateStep_none_spec (l : List JSDate) :
    (l = [] ∧ l.foldl maxDateStep none = none) ∨
    ∃ L, l.foldl maxDateStep none = some L ∧ L ∈ l ∧
      ∀ d ∈ l, d.keyNum ≤ L.keyNum := by
  cases l with
  | nil => exact Or.inl ⟨rfl, rfl⟩
  | cons a as =>
    obtain ⟨L, e1, e2, e3, e4⟩ := foldl_maxDateStep_some as a
    refine Or.inr ⟨L, ?_, ?_, ?_⟩
    · simpa [maxDateStep] using e1
    · rcases e2 with h | h
      · simp [h]
      · exact List.mem_cons_of_mem _ h
    · intro d hd
      rcases List.mem_cons.mp hd with h | h
      · exact h ▸ e3
      · exact e4 d h

/-- The computed anchor of the Brex sheet: none exactly when no row parses;
    otherwise a maximum of the parsed dates, with the boundary rows being the
    parsed rows on its calendar day. -/
theorem latestInfo_spec (sheet : Sheet) :
    ((getLatestTransactionInfo "Auto_input.Brex" sheet).latestDate = none ↔
      sheet.filterMap parseRowBrex = []) ∧
    ∀ L, (getLatestTransactionInfo "Auto_input.Brex" sheet).latestDate = some L →
      L ∈ (sheet.filterMap parseRowBrex).map Prod.snd ∧
      (∀ d ∈ (sheet.filterMap parseRowBrex).map Prod.snd, d.keyNum ≤ L.keyNum) ∧
      (getLatestTransactionInfo "Auto_input.Brex" sheet).existingFromLatestDate =
        ((sheet.filterMap parseRowBrex).filter fun p => p.2.sameDay L).map Prod.fst := by
  have hdef : getLatestTransactionInfo "Auto_input.Brex" sheet =
      ⟨((sheet.filterMap parseRowBrex).map Prod.snd).foldl maxDateStep none,
       ((sheet.filterMap parseRowBrex).filter fun p =>
         match ((sheet.filterMap parseRowBrex).map Prod.snd).foldl maxDateStep none with
         | some l => p.2.sameDay l
         | none => false).map Prod.fst⟩ := by
    simp [getLatestTransactionInfo]
  rcases foldl_maxDateStep_none_spec ((sheet.filterMap parseRowBrex).map Prod.snd) with
    ⟨h1, h2⟩ | ⟨L, h2, h3, h4⟩
  · constructor
    · rw [hdef]
      simp only [h2]
      simp only [List.map_eq_nil_iff] at h1
      simp [h1]
    · intro L hL
      rw [hdef] at hL
      simp only [h2] at hL
      exact absurd hL (by simp)
  · constructor
    · rw [hdef]
      simp only [h2]
      constructor
      · intro h; exact absurd h (by simp)
      · intro h; rw [h] at h3; simp at h3
    · intro L2 hL2
      rw [hdef] at hL2
      simp only [h2] at hL2
      have hLL : L2 = L := by simpa using hL2.symm
      subst hLL
      exact ⟨h3, h4, by rw [hdef]; simp only [h2]⟩

/-- Every latestDate anchor is a parsed midnight value. -/
theorem latestDate_ms {sheet : Sheet} {L : JSDate}
    (h : (getLatestTransactionInfo "Auto_input.Brex" sheet).latestDate = some L) :
    L.msOfDay = 0 := by
  obtain ⟨hmem, -, -⟩ := (latestInfo_spec sheet).2 L h
  rw [List.mem_map] at hmem
  obtain ⟨⟨e, p⟩, hp, hsnd⟩ := hmem
  obtain ⟨r, -, hparse⟩ := List.mem_filterMap.mp hp
  cases hsnd
  exact parseRowBrex_ms hparse

theorem ltB_iff {a b : JSDate} : a.ltB b = true ↔ a.keyNum < b.keyNum := by
  simp [JSDate.ltB]

theorem sameDay_iff {a b : JSDate} :
    a.sameDay b = true ↔ a.year = b.year ∧ a.month = b.month ∧ a.day = b.day := by
  simp [JSDate.sameDay, and_assoc]

/-- A transaction instant on the calendar day of a midnight anchor is never
    strictly before the anchor. -/
theorem sameDay_not_ltB {a b : JSDate} (hsd : a.sameDay b = true)
    (hb : b.msOfDay = 0) : a.ltB b = false := by
  obtain ⟨h1, h2, h3⟩ := sameDay_iff.mp hsd
  simp only [JSDate.ltB, decide_eq_false_iff_not, not_lt, JSDate.keyNum, h1, h2, h3, hb]
  omega

end TxSync

open TxSync

/-- C1: Strategy A (identity-set dedup, used for the Stripe sheet): for every
    fetched transaction t and every identity set knownIds read from the sink,
    t is in the filtered newTransactions if and only if t.id is not a member
    of knownIds. -/
theorem c1_identity_set_filter
    (sheet : Sheet) (fetched : List Transaction) (t : Transaction)
    (ht : t ∈ fetched) :
    t ∈ fetched.filter (idKeep (getExistingIds "Auto_input.Stripe" sheet)) ↔
      t.id ∉ getExistingIds "Auto_input.Stripe" sheet := by
  rw [List.mem_filter]
  simp [idKeep, ht]

theorem c1_identity_set_filter_witness :
    ({ id := "ch_new", date := some ⟨2025, 11, 20, 0⟩, amount := 100,
       currency := "USD", description := "x", type := TxType.income :
       Transaction } ∈
        [({ id := "ch_new", date := some ⟨2025, 11, 20, 0⟩, amount := 100,
            currency := "USD", description := "x", type := TxType.income :
            Transaction })] ∧
     (({ id := "ch_new", date := some ⟨2025, 11, 20, 0⟩, amount := 100,
         currency := "USD", description := "x", type := TxType.income :
         Transaction } ∈
        [({ id := "ch_new", date := some ⟨2025, 11, 20, 0⟩, amount := 100,
            currency := "USD", description := "x", type := TxType.income :
            Transaction })].filter
          (idKeep (getExistingIds "Auto_input.Stripe" [["ch_old"]]))) ↔
      ({ id := "ch_new", date := some ⟨2025, 11, 20, 0⟩, amount := 100,
         currency := "USD", description := "x", type := TxType.income :
         Transaction }).id ∉ getExistingIds "Auto_input.Stripe" [["ch_old"]])) :=
  ⟨by decide,
   c1_identity_set_filter [["ch_old"]] _ _ (by decide)⟩

/-- C2: Strategy B (temporal-boundary dedup, used for the Brex sheet): with
    the anchor read from the sink, a fetched transaction dated strictly before
    latestDate is excluded from newTransactions regardless of content; one on
    the same calendar day as latestDate is excluded exactly when some anchor
    row matches its (dd/mm/yy date text, signed comma-separated amount text,
    resolved description text) triple exactly; one strictly after latestDate
    is always included; and with no latestDate every fetched transaction is
    included. -/
theorem c2_temporal_boundary_filter
    (sheet : Sheet) (fetched : List Transaction) (t : Transaction) (d : JSDate)
    (ht : t ∈ fetched) (hd : t.date = some d) :
    ((getLatestTransactionInfo "Auto_input.Brex" sheet).latestDate = none →
      t ∈ fetched.filter
        (brexKeep (getLatestTransactionInfo "Auto_input.Brex" sheet))) ∧
    (∀ l, (getLatestTransactionInfo "Auto_input.Brex" sheet).latestDate = some l →
      (d.ltB l = true →
        t ∉ fetched.filter
          (brexKeep (getLatestTransactionInfo "Auto_input.Brex" sheet))) ∧
      (d.sameDay l = true →
        (t ∉ fetched.filter
            (brexKeep (getLatestTransactionInfo "Auto_input.Brex" sheet)) ↔
          ∃ e ∈ (getLatestTransactionInfo "Auto_input.Brex" sheet).existingFromLatestDate,
            e.date = formatDateDDMMYY d ∧ e.amount = amountValue t ∧
              e.description = toFrom t)) ∧
      (l.ltB d = true → d.sameDay l = false →
        t ∈ fetched.filter
          (brexKeep (getLatestTransactionInfo "Auto_input.Brex" sheet)))) := by
  constructor
  · intro hnone
    refine List.mem_filter.mpr ⟨ht, ?_⟩
    simp [brexKeep, hnone]
  · intro l hl
    refine ⟨?_, ?_, ?_⟩
    · intro hlt hmem
      have hk := (List.mem_filter.mp hmem).2
      simp [brexKeep, hl, hd, hlt] at hk
    · intro hsd
      have hnlt : d.ltB l = false := sameDay_not_ltB hsd (latestDate_ms hl)
      have hkeep :
          brexKeep (getLatestTransactionInfo "Auto_input.Brex" sheet) t = false ↔
          ∃ e ∈ (getLatestTransactionInfo "Auto_input.Brex" sheet).existingFromLatestDate,
            e.date = formatDateDDMMYY d ∧ e.amount = amountValue t ∧
              e.description = toFrom t := by
        simp [brexKeep, hl, hd, hnlt, hsd, and_assoc]
      constructor
      · intro hnot
        apply hkeep.mp
        cases hb : brexKeep (getLatestTransactionInfo "Auto_input.Brex" sheet) t with
        | false => rfl
        | true => exact absurd (List.mem_filter.mpr ⟨ht, hb⟩) hnot
      · intro hex hmem
        have hmem2 := (List.mem_filter.mp hmem).2
        rw [hkeep.mpr hex] at hmem2
        exact Bool.false_ne_true hmem2
    · intro hgt hnsd
      have hnlt : d.ltB l = false := by
        rw [ltB_iff] at hgt
        simp only [JSDate.ltB, decide_eq_false_iff_not, not_lt]
        omega
      refine List.mem_filter.mpr ⟨ht, ?_⟩
      simp [brexKeep, hl, hd, hnlt, hnsd]

theorem c2_temporal_boundary_filter_witness :
    ({ id := "brex_cash_1", date := some ⟨2025, 11, 19, 0⟩, amount := 100,
       currency := "USD", description := "x", type := TxType.expense,
       account := "Brex" : Transaction } ∈
        [({ id := "brex_cash_1", date := some ⟨2025, 11, 19, 0⟩, amount := 100,
            currency := "USD", description := "x", type := TxType.expense,
            account := "Brex" : Transaction })] ∧
     (getLatestTransactionInfo "Auto_input.Brex"
        [["20/11/25", "ACME", "-5.00"]]).latestDate = some ⟨2025, 11, 20, 0⟩) ∧
    ({ id := "brex_cash_1", date := some ⟨2025, 11, 19, 0⟩, amount := 100,
       currency := "USD", description := "x", type := TxType.expense,
       account := "Brex" : Transaction } ∉
      [({ id := "brex_cash_1", date := some ⟨2025, 11, 19, 0⟩, amount := 100,
          currency := "USD", description := "x", type := TxType.expense,
          account := "Brex" : Transaction })].filter
        (brexKeep (getLatestTransactionInfo "Auto_input.Brex"
          [["20/11/25", "ACME", "-5.00"]]))) :=
  ⟨⟨by decide, by decide⟩,
   ((c2_temporal_boundary_filter [["20/11/25", "ACME", "-5.00"]] _ _
        ⟨2025, 11, 19, 0⟩ (by decide) rfl).2
      ⟨2025, 11, 20, 0⟩ (by decide)).1 (by decide)⟩

/-- C7: Two-digit-year date parsing of sink rows: every date cell is parsed
    with the pivot rule yy < 50 means 20yy, otherwise 19yy, so "21/11/25"
    parses to 2025-11-21 and "21/11/73" parses to 1973-11-21; the maximum
    successfully parsed date becomes latestDate (none exactly when nothing
    parses), and unparseable rows are ignored for anchor computation rather
    than treated as an error. -/
theorem c7_two_digit_year_parsing :
    parseDateCell "21/11/25" = some ⟨2025, 11, 21, 0⟩ ∧
    parseDateCell "21/11/73" = some ⟨1973, 11, 21, 0⟩ ∧
    (∀ sheet L,
      (getLatestTransactionInfo "Auto_input.Brex" sheet).latestDate = some L →
        L ∈ (sheet.filterMap parseRowBrex).map Prod.snd ∧
        ∀ p ∈ (sheet.filterMap parseRowBrex).map Prod.snd, p.keyNum ≤ L.keyNum) ∧
    (∀ sheet,
      (getLatestTransactionInfo "Auto_input.Brex" sheet).latestDate = none ↔
        sheet.filterMap parseRowBrex = []) ∧
    (∀ s1 s2 r, parseRowBrex r = none →
      getLatestTransactionInfo "Auto_input.Brex" (s1 ++ r :: s2) =
        getLatestTransactionInfo "Auto_input.Brex" (s1 ++ s2)) := by
  refine ⟨by decide, by decide, ?_, ?_, ?_⟩
  · intro sheet L hL
    obtain ⟨h1, h2, -⟩ := (latestInfo_spec sheet).2 L hL
    exact ⟨h1, h2⟩
  · intro sheet
    exact (latestInfo_spec sheet).1
  · intro s1 s2 r hr
    unfold getLatestTransactionInfo
    rw [List.filterMap_append, List.filterMap_cons, hr, ← List.filterMap_append]

theorem c7_two_digit_year_parsing_witness :
    (⟨2025, 11, 21, 0⟩ : JSDate) ∈
      (([["21/11/25", "a", "5.00"], ["none", "b", "c"]].filterMap
        parseRowBrex).map Prod.snd) ∧
    ∀ p ∈ (([["21/11/25", "a", "5.00"], ["none", "b", "c"]].filterMap
        parseRowBrex).map Prod.snd),
      p.keyNum ≤ (⟨2025, 11, 21, 0⟩ : JSDate).keyNum :=
  c7_two_digit_year_parsing.2.2.1
    [["21/11/25", "a", "5.00"], ["none", "b", "c"]] ⟨2025, 11, 21, 0⟩ (by decide)

/-- C10: Empty-fetch frame property: if a source's connector returns an empty
    transaction list, syncSource returns new 0 and total 0 immediately, with
    no sink operation at all (no anchor read, no id read, no append), and the
    sheet state unchanged. -/
theorem c10_empty_fetch_frame (src sheetName : String) (sheet : Sheet) (ok : Bool) :
    syncSource src [] sheetName sheet ok =
      ({ source := src, new := 0, total := 0 }, sheet, []) := rfl

namespace TxSync

theorem syncSource_source (n : String) (f : List Transaction) (sh : String)
    (s : Sheet) (ok : Bool) : (syncSource n f sh s ok).1.source = n := by
  simp only [syncSource]
  split
  · rfl
  · split <;> (split <;> rfl)

theorem syncSource_errors (n : String) (f : List Transaction) (sh : String)
    (s : Sheet) (ok : Bool) : (syncSource n f sh s ok).1.errors = none := by
  simp only [syncSource]
  split
  · rfl
  · split <;> (split <;> rfl)

theorem syncAll_map_source (env : SyncEnv) :
    ∀ (sources : List String) (st : SheetsState),
      (syncAll env st sources).1.map SyncResult.source =
        sources.filter fun s => s = "brex" || s = "stripe" := by
  intro sources
  induction sources with
  | nil => intro st; rfl
  | cons s rest ih =>
    intro st
    by_cases hb : s = "brex"
    · subst hb
      cases hfr : env.fetchResult "brex" with
      | error msg => simp [syncAll, hfr, ih]
      | ok txs => simp [syncAll, hfr, ih, syncSource_source]
    · by_cases hs : s = "stripe"
      · subst hs
        cases hfr : env.fetchResult "stripe" with
        | error msg => simp [syncAll, hfr, ih]
        | ok txs => simp [syncAll, hfr, ih, syncSource_source]
      · simp [syncAll, hb, hs, ih]

theorem syncAll_error_mem (env : SyncEnv) :
    ∀ (sources : List String) (st : SheetsState) (s msg : String),
      s ∈ sources → (s = "brex" ∨ s = "stripe") →
      env.fetchResult s = Except.error msg →
      ({ source := s, new := 0, total := 0, errors := some [msg] } : SyncResult) ∈
        (syncAll env st sources).1 := by
  intro sources
  induction sources with
  | nil =>
    intro st s msg h
    simp at h
  | cons a rest ih =>
    intro st s msg hmem hvalid herr
    rcases List.mem_cons.mp hmem with heq | htail
    · subst heq
      rcases hvalid with hb | hs
      · subst hb
        simp [syncAll, herr]
      · subst hs
        simp [syncAll, herr]
    · by_cases hb : a = "brex"
      · subst hb
        cases hfr : env.fetchResult "brex" with
        | error m =>
          simp only [syncAll, hfr]
          exact List.mem_cons_of_mem _ (ih st s msg htail hvalid herr)
        | ok txs =>
          simp only [syncAll, hfr]
          exact List.mem_cons_of_mem _ (ih _ s msg htail hvalid herr)
      · by_cases hsx : a = "stripe"
        · subst hsx
          cases hfr : env.fetchResult "stripe" with
          | error m =>
            simp only [syncAll, hfr]
            exact List.mem_cons_of_mem _ (ih st s msg htail hvalid herr)
          | ok txs =>
            simp only [syncAll, hfr]
            exact List.mem_cons_of_mem _ (ih _ s msg htail hvalid herr)
        · simp only [syncAll, hb, hsx]
          exact ih st s msg htail hvalid herr

end TxSync

/-- C4: Failure isolation in the orchestrator: a fetch that throws for one
    source is caught at that source's boundary and recorded as a SyncResult
    with errors equal to the one-element list holding the message and new 0;
    every remaining valid source is still processed (the result list carries
    one entry per valid requested source, in order); and in the concrete
    scenario where the brex connector throws and stripe succeeds with two new
    transactions, the run returns exactly two SyncResults, stripe's counting
    its real new transactions and brex's carrying the non-empty error list. -/
theorem c4_failure_isolation :
    (∀ (env : SyncEnv) (st : SheetsState) (sources : List String) (s msg : String),
      s ∈ sources → (s = "brex" ∨ s = "stripe") →
      env.fetchResult s = Except.error msg →
      ({ source := s, new := 0, total := 0, errors := some [msg] } : SyncResult) ∈
        (syncAll env st sources).1) ∧
    (∀ (env : SyncEnv) (st : SheetsState) (sources : List String),
      (syncAll env st sources).1.map SyncResult.source =
        sources.filter fun s => s = "brex" || s = "stripe") ∧
    (syncAll
        { fetchResult := fun s =>
            if s = "stripe" then
              Except.ok
                [{ id := "ch_1", date := some ⟨2025, 11, 18, 0⟩, amount := 1000,
                   currency := "USD", description := "one", type := TxType.income,
                   account := "Stripe" },
                 { id := "ch_2", date := some ⟨2025, 11, 19, 0⟩, amount := 2000,
                   currency := "USD", description := "two", type := TxType.income,
                   account := "Stripe" }]
            else Except.error "Brex API key not configured",
          appendOk := fun _ => true }
        ⟨[], []⟩ ["brex", "stripe"]).1 =
      [{ source := "brex", new := 0, total := 0,
         errors := some ["Brex API key not configured"] },
       { source := "stripe", new := 2, total := 2 }] := by
  refine ⟨?_, ?_, ?_⟩
  · intro env st sources s msg hmem hvalid herr
    exact syncAll_error_mem env sources st s msg hmem hvalid herr
  · intro env st sources
    exact syncAll_map_source env sources st
  · decide

theorem c4_failure_isolation_witness :
    ("brex" ∈ ["brex", "stripe"] ∧
     ({ fetchResult := fun _ => Except.error "boom",
        appendOk := fun _ => true } : SyncEnv).fetchResult "brex" =
       Except.error "boom") ∧
    ({ source := "brex", new := 0, total := 0, errors := some ["boom"] } :
        SyncResult) ∈
      (syncAll
        { fetchResult := fun _ => Except.error "boom", appendOk := fun _ => true }
        ⟨[], []⟩ ["brex", "stripe"]).1 :=
  ⟨⟨by decide, rfl⟩,
   c4_failure_isolation.1 _ ⟨[], []⟩ ["brex", "stripe"] "brex" "boom"
     (by decide) (Or.inl rfl) rfl⟩

/-- C6 counterexample: a sink write failure after a successful fetch is not
    surfaced in the SyncResult at all — the run reports new 0 with errors
    none, so the claim that every error (including a write failure) appears
    in the errors list is false. -/
theorem c6_counterexample_write_failure_silent :
    (syncAll
        { fetchResult := fun s =>
            if s = "stripe" then
              Except.ok
                [{ id := "ch_w", date := some ⟨2025, 11, 20, 0⟩, amount := 100,
                   currency := "USD", description := "w", type := TxType.income,
                   account := "Stripe" }]
            else Except.error "no",
          appendOk := fun _ => false }
        ⟨[], []⟩ ["stripe"]).1 =
      [{ source := "stripe", new := 0, total := 1, errors := none }] := by decide

/-- C6 amended: an error thrown during a source's fetch is captured per-source
    and surfaced as that source's one-element errors list; a sink write
    failure after a successful fetch is swallowed (the SyncResult of a
    successful fetch always carries errors none, whatever the append call
    does); and the syncAll call never fails on account of source names —
    given zero valid source names it returns the empty result list. -/
theorem c6_error_surfacing_amended :
    (∀ (env : SyncEnv) (st : SheetsState) (s : String) (rest : List String)
        (txs : List Transaction),
      (s = "brex" ∨ s = "stripe") → env.fetchResult s = Except.ok txs →
      ∃ r rs, (syncAll env st (s :: rest)).1 = r :: rs ∧ r.source = s ∧
        r.errors = none) ∧
    (∀ (env : SyncEnv) (st : SheetsState) (s : String) (rest : List String)
        (msg : String),
      (s = "brex" ∨ s = "stripe") → env.fetchResult s = Except.error msg →
      ∃ rs, (syncAll env st (s :: rest)).1 =
        { source := s, new := 0, total := 0, errors := some [msg] } :: rs) ∧
    (∀ (env : SyncEnv) (st : SheetsState) (sources : List String),
      (∀ s ∈ sources, s ≠ "brex" ∧ s ≠ "stripe") →
      syncAll env st sources = ([], st)) := by
  refine ⟨?_, ?_, ?_⟩
  · intro env st s rest txs hvalid hok
    rcases hvalid with hb | hs
    · subst hb
      refine ⟨(syncSource "brex" txs "Auto_input.Brex" st.brex (env.appendOk "brex")).1,
        (syncAll env
          { st with
            brex := (syncSource "brex" txs "Auto_input.Brex" st.brex
              (env.appendOk "brex")).2.1 } rest).1,
        by simp [syncAll, hok], syncSource_source _ _ _ _ _,
        syncSource_errors _ _ _ _ _⟩
    · subst hs
      refine ⟨(syncSource "stripe" txs "Auto_input.Stripe" st.stripe
          (env.appendOk "stripe")).1,
        (syncAll env
          { st with
            stripe := (syncSource "stripe" txs "Auto_input.Stripe" st.stripe
              (env.appendOk "stripe")).2.1 } rest).1,
        by simp [syncAll, hok], syncSource_source _ _ _ _ _,
        syncSource_errors _ _ _ _ _⟩
  · intro env st s rest msg hvalid herr
    rcases hvalid with hb | hs
    · subst hb
      exact ⟨(syncAll env st rest).1, by simp [syncAll, herr]⟩
    · subst hs
      exact ⟨(syncAll env st rest).1, by simp [syncAll, herr]⟩
  · intro env st sources
    induction sources with
    | nil => intro; rfl
    | cons a rest ih =>
      intro h
      have ha := h a (List.mem_cons_self a rest)
      simp only [syncAll, if_neg ha.1, if_neg ha.2]
      exact ih fun s hs => h s (List.mem_cons_of_mem a hs)

theorem c6_error_surfacing_amended_witness :
    (("stripe" = "brex" ∨ "stripe" = "stripe") ∧
     ({ fetchResult := fun s =>
          if s = "stripe" then
            Except.ok
              [{ id := "ch_w", date := some ⟨2025, 11, 20, 0⟩, amount := 100,
                 currency := "USD", description := "w", type := TxType.income,
                 account := "Stripe" }]
          else Except.error "no",
        appendOk := fun _ => false } : SyncEnv).fetchResult "stripe" =
       Except.ok
         [{ id := "ch_w", date := some ⟨2025, 11, 20, 0⟩, amount := 100,
            currency := "USD", description := "w", type := TxType.income,
            account := "Stripe" }]) ∧
    ∃ r rs,
      (syncAll
          { fetchResult := fun s =>
              if s = "stripe" then
                Except.ok
                  [{ id := "ch_w", date := some ⟨2025, 11, 20, 0⟩, amount := 100,
                     currency := "USD", description := "w", type := TxType.income,
                     account := "Stripe" }]
              else Except.error "no",
            appendOk := fun _ => false }
          ⟨[], []⟩ ["stripe"]).1 = r :: rs ∧ r.source = "stripe" ∧
        r.errors = none :=
  ⟨⟨Or.inr rfl, rfl⟩,
   c6_error_surfacing_amended.1 _ ⟨[], []⟩ "stripe" [] _ (Or.inr rfl) rfl⟩

namespace TxSync

theorem sortByDate_mem {l : List Transaction} {t : Transaction} :
    t ∈ sortByDate l ↔ t ∈ l := by
  simp [sortByDate, List.mem_insertionSort]

theorem stripeSheetRows_spec :
    ∀ (txs : List Transaction), (∀ t ∈ txs, t.date ≠ none) →
      ∃ rows, stripeSheetRows txs = some rows ∧ rows.length = txs.length ∧
        ∀ t ∈ txs, t.id ∈ rows.map fun r => cell r 0 := by
  intro txs
  induction txs with
  | nil => intro; exact ⟨[], rfl, rfl, by simp⟩
  | cons t ts ih =>
    intro hvalid
    obtain ⟨rows, h1, h2, h3⟩ := ih fun u hu => hvalid u (List.mem_cons_of_mem t hu)
    cases hd : t.date with
    | none => exact absurd hd (hvalid t (List.mem_cons_self t ts))
    | some d =>
      refine ⟨stripeSheetRow t d :: rows, ?_, by simp [h2], ?_⟩
      · simp only [stripeSheetRows, hd, h1]
      · intro u hu
        rcases List.mem_cons.mp hu with heq | htail
        · subst heq
          simp [stripeSheetRow, cell]
        · simp only [List.map_cons, List.mem_cons]
          exact Or.inr (h3 u htail)

theorem brexRows_length_of_valid :
    ∀ txs : List Transaction, (∀ t ∈ txs, t.date ≠ none) →
      (txs.filterMap brexSheetRow).length = txs.length := by
  intro txs
  induction txs with
  | nil => intro; rfl
  | cons t ts ih =>
    intro hvalid
    cases hd : t.date with
    | none => exact absurd hd (hvalid t (List.mem_cons_self t ts))
    | some d =>
      have : brexSheetRow t = some
          [ formatDateDDMMYY d, toFrom t, amountValue t, memoField t, "", "",
            jsOr t.initiatedBy "Client", jsOr t.paymentMethod "ACH/Wire",
            jsOr t.status "Finalized", if isFinalized t then "TRUE" else "FALSE" ] := by
        simp only [brexSheetRow, hd]
      rw [List.filterMap_cons, this]
      simp only [List.length_cons]
      rw [ih fun u hu => hvalid u (List.mem_cons_of_mem t hu)]

theorem addTransactions_length (sheetName : String) (txs : List Transaction)
    (sheet : Sheet) (ok : Bool) (hvalid : ∀ t ∈ txs, t.date ≠ none) :
    (addTransactions sheetName txs sheet ok).2.length =
      sheet.length + (addTransactions sheetName txs sheet ok).1 := by
  unfold addTransactions
  split
  · simp
  · by_cases hsh : sheetName = "Auto_input.Stripe"
    · obtain ⟨rows, h1, h2, -⟩ := stripeSheetRows_spec txs hvalid
      simp only [hsh, if_pos rfl, h1]
      cases ok with
      | true => simp [h2]
      | false => simp
    · by_cases hsb : sheetName = "Auto_input.Brex"
      · simp only [hsh, if_neg hsh, hsb, if_pos rfl]
        cases ok with
        | true => simp [brexRows_length_of_valid txs hvalid]
        | false => simp
      · simp only [if_neg hsh, if_neg hsb]
        cases ok with
        | true => simp
        | false => simp

theorem syncSource_sheet_length (n : String) (f : List Transaction) (sh : String)
    (s : Sheet) (ok : Bool) (hvalid : ∀ t ∈ f, t.date ≠ none) :
    (syncSource n f sh s ok).2.1.length =
      s.length + (syncSource n f sh s ok).1.new := by
  simp only [syncSource]
  split
  · simp
  · split
    · next hsh =>
      split
      · simp
      · exact addTransactions_length sh _ s ok fun t ht =>
          hvalid t (List.mem_filter.mp (sortByDate_mem.mp ht)).1
    · split
      · simp
      · exact addTransactions_length sh _ s ok fun t ht =>
          hvalid t (List.mem_filter.mp (sortByDate_mem.mp ht)).1

end TxSync

/-- C5 counterexample: a Brex transaction whose date is invalid is dropped
    from the written rows during row formatting, yet the run still reports it
    as new — the reported count is 1 while zero rows are appended to the
    sink, so reported newCount does not equal the number of rows actually
    appended. -/
theorem c5_counterexample_invalid_date_overcount :
    (syncSource "brex"
        [{ id := "brex_cash_bad", date := none, amount := 100, currency := "USD",
           description := "x", type := TxType.expense, account := "Brex" }]
        "Auto_input.Brex" [] true).1.new = 1 ∧
    (syncSource "brex"
        [{ id := "brex_cash_bad", date := none, amount := 100, currency := "USD",
           description := "x", type := TxType.expense, account := "Brex" }]
        "Auto_input.Brex" [] true).2.1.length = 0 := by decide

/-- C5 amended: when every fetched transaction carries a valid date, the
    accounting is exact for any sequence of sources in a run: the total sink
    row count after syncAll equals the count before plus the sum of every
    reported newCount (a failed append call reports 0 and appends nothing;
    but a transaction dropped for an invalid date during Brex row formatting
    is still counted as new, which the unamended claim wrongly includes). -/
theorem c5_ledger_growth_amended
    (env : SyncEnv) (st : SheetsState) (sources : List String)
    (hvalid : ∀ s txs, env.fetchResult s = Except.ok txs →
      ∀ t ∈ txs, t.date ≠ none) :
    (syncAll env st sources).2.brex.length +
        (syncAll env st sources).2.stripe.length =
      st.brex.length + st.stripe.length +
        ((syncAll env st sources).1.map SyncResult.new).sum := by
  induction sources generalizing st with
  | nil => simp [syncAll]
  | cons a rest ih =>
    obtain ⟨sb, ss⟩ := st
    by_cases hb : a = "brex"
    · subst hb
      cases hfr : env.fetchResult "brex" with
      | error m =>
        have h2 := ih ⟨sb, ss⟩
        dsimp only at h2
        simp [syncAll, hfr]
        omega
      | ok txs =>
        have h1 := syncSource_sheet_length "brex" txs "Auto_input.Brex" sb
          (env.appendOk "brex") (hvalid _ _ hfr)
        have h2 := ih ⟨(syncSource "brex" txs "Auto_input.Brex" sb
          (env.appendOk "brex")).2.1, ss⟩
        dsimp only at h2
        simp [syncAll, hfr]
        omega
    · by_cases hs : a = "stripe"
      · subst hs
        cases hfr : env.fetchResult "stripe" with
        | error m =>
          have h2 := ih ⟨sb, ss⟩
          dsimp only at h2
          simp [syncAll, hb, hfr]
          omega
        | ok txs =>
          have h1 := syncSource_sheet_length "stripe" txs "Auto_input.Stripe"
            ss (env.appendOk "stripe") (hvalid _ _ hfr)
          have h2 := ih ⟨sb, (syncSource "stripe" txs "Auto_input.Stripe" ss
            (env.appendOk "stripe")).2.1⟩
          dsimp only at h2
          simp [syncAll, hb, hfr]
          omega
      · simp only [syncAll, if_neg hb, if_neg hs]
        exact ih ⟨sb, ss⟩

theorem c5_ledger_growth_amended_witness :
    (∀ s txs,
      ({ fetchResult := fun s =>
           if s = "stripe" then
             Except.ok
               [{ id := "ch_a", date := some ⟨2025, 11, 20, 0⟩, amount := 700,
                  currency := "USD", description := "a", type := TxType.income,
                  account := "Stripe" }]
           else Except.error "down",
         appendOk := fun _ => true } : SyncEnv).fetchResult s = Except.ok txs →
      ∀ t ∈ txs, t.date ≠ none) ∧
    (syncAll
        { fetchResult := fun s =>
            if s = "stripe" then
              Except.ok
                [{ id := "ch_a", date := some ⟨2025, 11, 20, 0⟩, amount := 700,
                   currency := "USD", description := "a", type := TxType.income,
                   account := "Stripe" }]
            else Except.error "down",
          appendOk := fun _ => true }
        ⟨[], []⟩ ["brex", "stripe"]).2.brex.length +
      (syncAll
        { fetchResult := fun s =>
            if s = "stripe" then
              Except.ok
                [{ id := "ch_a", date := some ⟨2025, 11, 20, 0⟩, amount := 700,
                   currency := "USD", description := "a", type := TxType.income,
                   account := "Stripe" }]
            else Except.error "down",
          appendOk := fun _ => true }
        ⟨[], []⟩ ["brex", "stripe"]).2.stripe.length =
      ([] : Sheet).length + ([] : Sheet).length +
        ((syncAll
          { fetchResult := fun s =>
              if s = "stripe" then
                Except.ok
                  [{ id := "ch_a", date := some ⟨2025, 11, 20, 0⟩, amount := 700,
                     currency := "USD", description := "a", type := TxType.income,
                     account := "Stripe" }]
              else Except.error "down",
            appendOk := fun _ => true }
          ⟨[], []⟩ ["brex", "stripe"]).1.map SyncResult.new).sum :=
  have hv : ∀ s txs,
      ({ fetchResult := fun s =>
           if s = "stripe" then
             Except.ok
               [{ id := "ch_a", date := some ⟨2025, 11, 20, 0⟩, amount := 700,
                  currency := "USD", description := "a", type := TxType.income,
                  account := "Stripe" }]
           else Except.error "down",
         appendOk := fun _ => true } : SyncEnv).fetchResult s = Except.ok txs →
      ∀ t ∈ txs, t.date ≠ none := by
    intro s txs h t ht
    by_cases hs : s = "stripe"
    · subst hs
      simp at h
      subst h
      simp at ht
      subst ht
      simp
    · simp [hs] at h
  ⟨hv, c5_ledger_growth_amended _ ⟨[], []⟩ ["brex", "stripe"] hv⟩

namespace TxSync

theorem count_le_count_filterMap {α β : Type} [DecidableEq α] [DecidableEq β]
    (f : α → Option β) (r : α) (t : β) (h : f r = some t) :
    ∀ l : List α, l.count r ≤ (l.filterMap f).count t := by
  intro l
  induction l with
  | nil => simp
  | cons a as ih =>
    rw [List.filterMap_cons]
    by_cases ha : a = r
    · subst ha
      rw [h]
      simp [List.count_cons]
      omega
    · cases hfa : f a with
      | none =>
        simp [List.count_cons, ha]
        omega
      | some b =>
        simp [List.count_cons, ha]
        have : (as.filterMap f).count t ≤ (b :: as.filterMap f).count t := by
          simp [List.count_cons]
        omega

theorem sortByDate_count (l : List Transaction) (t : Transaction) :
    (sortByDate l).count t = l.count t :=
  (List.perm_insertionSort _ l).count_eq t

end TxSync

/-- C8 counterexample: the Brex connector performs no last-write-wins dedup at
    all — two identical provider records normalize to two transactions in the
    returned list with the same instant, the same id and the same
    createUniqueKey, so the claim that no two fetched transactions share an
    instant and a normalized identity is false. -/
theorem c8_counterexample_duplicates_survive :
    ((BrexParser.fetchTransactions
        { cashPrimary := Except.ok
            [{ id := "tx1", amountCents := 5000,
               dateVal := DateVal.ok ⟨2025, 11, 20, 0⟩,
               counterparty_name := "ACME" },
             { id := "tx1", amountCents := 5000,
               dateVal := DateVal.ok ⟨2025, 11, 20, 0⟩,
               counterparty_name := "ACME" }],
          cash := Except.error (), transfers := Except.error (),
          card := Except.error () }).map Transaction.id =
      ["brex_cash_tx1", "brex_cash_tx1"]) ∧
    ((BrexParser.fetchTransactions
        { cashPrimary := Except.ok
            [{ id := "tx1", amountCents := 5000,
               dateVal := DateVal.ok ⟨2025, 11, 20, 0⟩,
               counterparty_name := "ACME" },
             { id := "tx1", amountCents := 5000,
               dateVal := DateVal.ok ⟨2025, 11, 20, 0⟩,
               counterparty_name := "ACME" }],
          cash := Except.error (), transfers := Except.error (),
          card := Except.error () }).map Transaction.date =
      [some ⟨2025, 11, 20, 0⟩, some ⟨2025, 11, 20, 0⟩]) ∧
    ((BrexParser.fetchTransactions
        { cashPrimary := Except.ok
            [{ id := "tx1", amountCents := 5000,
               dateVal := DateVal.ok ⟨2025, 11, 20, 0⟩,
               counterparty_name := "ACME" },
             { id := "tx1", amountCents := 5000,
               dateVal := DateVal.ok ⟨2025, 11, 20, 0⟩,
               counterparty_name := "ACME" }],
          cash := Except.error (), transfers := Except.error (),
          card := Except.error () }).map BrexParser.createUniqueKey =
      ["tx1", "tx1"]) := by
  refine ⟨by decide, by decide, by decide⟩

/-- C8 amended: the connector applies no same-instant same-identity dedup.
    Every provider record occurrence that passes the skip rules (status,
    missing or invalid date, zero amount, noise pattern) contributes its own
    transaction to the returned list: the fetched list contains the
    normalization of a surviving record at least as many times as the record
    occurs in the winning endpoint's item list (createUniqueKey exists in the
    source but is never invoked). -/
theorem c8_no_connector_dedup_amended :
    (∀ (env : BrexApiEnv) (isTransfer : Bool) (items : List BrexRawTx)
        (r : BrexRawTx) (t : Transaction),
      brexCashAttempt env = some (isTransfer, items) →
      normBrexCash isTransfer r = some t →
      items.count r ≤ (BrexParser.fetchTransactions env).count t) ∧
    (∀ (env : BrexApiEnv) (items : List BrexCardRawTx) (r : BrexCardRawTx)
        (t : Transaction),
      env.card = Except.ok items → normBrexCard r = some t →
      items.count r ≤ (BrexParser.fetchTransactions env).count t) := by
  constructor
  · intro env isTransfer items r t hatt hnorm
    have h1 := count_le_count_filterMap (normBrexCash isTransfer) r t hnorm items
    calc items.count r ≤ (items.filterMap (normBrexCash isTransfer)).count t := h1
      _ ≤ (BrexParser.fetchTransactions env).count t := by
          simp only [BrexParser.fetchTransactions, hatt]
          rw [sortByDate_count, List.count_append]
          omega
  · intro env items r t hcard hnorm
    have h1 := count_le_count_filterMap normBrexCard r t hnorm items
    calc items.count r ≤ (items.filterMap normBrexCard).count t := h1
      _ ≤ (BrexParser.fetchTransactions env).count t := by
          simp only [BrexParser.fetchTransactions, hcard]
          rw [sortByDate_count, List.count_append]
          omega

theorem c8_no_connector_dedup_amended_witness :
    (brexCashAttempt
        { cashPrimary := Except.ok
            [{ id := "tx9", amountCents := 700,
               dateVal := DateVal.ok ⟨2025, 11, 21, 0⟩,
               counterparty_name := "Z" },
             { id := "tx9", amountCents := 700,
               dateVal := DateVal.ok ⟨2025, 11, 21, 0⟩,
               counterparty_name := "Z" }],
          cash := Except.error (), transfers := Except.error (),
          card := Except.error () } =
      some (false,
        [{ id := "tx9", amountCents := 700,
           dateVal := DateVal.ok ⟨2025, 11, 21, 0⟩, counterparty_name := "Z" },
         { id := "tx9", amountCents := 700,
           dateVal := DateVal.ok ⟨2025, 11, 21, 0⟩,
           counterparty_name := "Z" }])) ∧
    [({ id := "tx9", amountCents := 700,
        dateVal := DateVal.ok ⟨2025, 11, 21, 0⟩,
        counterparty_name := "Z" } : BrexRawTx),
     { id := "tx9", amountCents := 700,
       dateVal := DateVal.ok ⟨2025, 11, 21, 0⟩,
       counterparty_name := "Z" }].count
        ({ id := "tx9", amountCents := 700,
           dateVal := DateVal.ok ⟨2025, 11, 21, 0⟩,
           counterparty_name := "Z" } : BrexRawTx) ≤
      (BrexParser.fetchTransactions
        { cashPrimary := Except.ok
            [{ id := "tx9", amountCents := 700,
               dateVal := DateVal.ok ⟨2025, 11, 21, 0⟩,
               counterparty_name := "Z" },
             { id := "tx9", amountCents := 700,
               dateVal := DateVal.ok ⟨2025, 11, 21, 0⟩,
               counterparty_name := "Z" }],
          cash := Except.error (), transfers := Except.error (),
          card := Except.error () }).count
        { id := "brex_cash_tx9",
          date := some ⟨2025, 11, 21, 0⟩,
          amount := 700, currency := "USD", description := "Z",
          type := TxType.expense, category := "Cash Transaction",
          account := "Brex", reference := "tx9", memo := "",
          externalMemo := "", initiatedBy := "Brex",
          paymentMethod := "ACH/Wire", status := "Finalized",
          brexData := some
            { originalId := "tx9", dataType := "cash", paymentType := "" } } :=
  ⟨by decide,
   c8_no_connector_dedup_amended.1 _ false _ _ _ (by decide) (by decide)⟩

namespace TxSync

theorem normBrexCash_fields {isT : Bool} {r : BrexRawTx} {t : Transaction}
    (h : normBrexCash isT r = some t) : t.account = "Brex" ∧ 0 < t.amount := by
  simp only [normBrexCash] at h
  repeat' split at h
  all_goals simp at h
  all_goals subst h
  all_goals
    exact ⟨rfl, lt_of_le_of_ne (abs_nonneg _) (Ne.symm (by assumption))⟩

theorem normBrexCard_fields {r : BrexCardRawTx} {t : Transaction}
    (h : normBrexCard r = some t) : t.account = "Brex Card" ∧ 0 ≤ t.amount := by
  simp only [normBrexCard] at h
  repeat' split at h
  all_goals simp at h
  all_goals subst h
  all_goals exact ⟨rfl, abs_nonneg _⟩

theorem formatAmountCents_nonneg (a : Nat) (cur : String) :
    0 ≤ formatAmountCents a cur := by
  unfold formatAmountCents
  split <;> positivity

end TxSync

/-- C9 counterexample: a Stripe payout normalizes to a transaction with a
    strictly negative amount (the source negates the formatted payout
    amount), so the invariant that every connector-produced transaction has
    amount strictly greater than zero is false. -/
theorem c9_counterexample_negative_payout :
    ∃ t ∈ StripeParser.fetchTransactions []
        [{ id := "po_1", created := 0, amountCents := 100, currency := "usd" }],
      t.amount < 0 := by decide

/-- C9 amended: every Brex transaction has a nonnegative amount, and every
    Brex cash or transfer transaction (account "Brex") has a strictly
    positive amount because the zero-amount skip applies there (a Brex card
    transaction can carry amount 0: no zero skip in the card loop); every
    Stripe charge transaction (type income) has a nonnegative amount, while
    every Stripe payout transaction (type expense) carries a nonpositive
    amount — the payout amount is negated instead of being kept as a positive
    magnitude, so the sign is not carried only in the type field. -/
theorem c9_amount_sign_amended :
    (∀ (env : BrexApiEnv) (t : Transaction),
      t ∈ BrexParser.fetchTransactions env →
      0 ≤ t.amount ∧ (t.account = "Brex" → 0 < t.amount)) ∧
    (∀ (charges : List StripeChargeRaw) (payouts : List StripePayoutRaw)
        (t : Transaction),
      t ∈ StripeParser.fetchTransactions charges payouts →
      (t.type = TxType.income → 0 ≤ t.amount) ∧
      (t.type = TxType.expense → t.amount ≤ 0)) := by
  constructor
  · intro env t hmem
    simp only [BrexParser.fetchTransactions] at hmem
    rw [sortByDate_mem, List.mem_append] at hmem
    rcases hmem with hc | hk
    · cases hatt : brexCashAttempt env with
      | none =>
        rw [hatt] at hc
        simp at hc
      | some p =>
        obtain ⟨isT, items⟩ := p
        rw [hatt] at hc
        obtain ⟨r, -, hr⟩ := List.mem_filterMap.mp hc
        obtain ⟨ha, hpos⟩ := normBrexCash_fields hr
        exact ⟨le_of_lt hpos, fun _ => hpos⟩
    · cases hcard : env.card with
      | error u =>
        rw [hcard] at hk
        simp at hk
      | ok items =>
        rw [hcard] at hk
        obtain ⟨r, -, hr⟩ := List.mem_filterMap.mp hk
        obtain ⟨ha, hge⟩ := normBrexCard_fields hr
        refine ⟨hge, fun hacc => ?_⟩
        rw [ha] at hacc
        exact absurd hacc (by decide)
  · intro charges payouts t hmem
    simp only [StripeParser.fetchTransactions] at hmem
    rw [List.mem_append] at hmem
    rcases hmem with hc | hp
    · obtain ⟨c, -, rfl⟩ := List.mem_map.mp hc
      refine ⟨fun _ => formatAmountCents_nonneg _ _, fun habs => ?_⟩
      exact absurd habs (by simp)
    · obtain ⟨p, -, rfl⟩ := List.mem_map.mp hp
      refine ⟨fun habs => absurd habs (by simp), fun _ => ?_⟩
      simp only [neg_nonpos]
      exact formatAmountCents_nonneg _ _

theorem c9_amount_sign_amended_witness :
    ({ id := "brex_cash_w1", date := some ⟨2025, 11, 22, 0⟩, amount := 300,
       currency := "USD", description := "W", type := TxType.expense,
       category := "Cash Transaction", account := "Brex", reference := "w1",
       initiatedBy := "Brex", paymentMethod := "ACH/Wire",
       status := "Finalized",
       brexData := some
         { originalId := "w1", dataType := "cash", paymentType := "" } :
       Transaction } ∈
      BrexParser.fetchTransactions
        { cashPrimary := Except.ok
            [{ id := "w1", amountCents := 300,
               dateVal := DateVal.ok ⟨2025, 11, 22, 0⟩,
               counterparty_name := "W" }],
          cash := Except.error (), transfers := Except.error (),
          card := Except.error () }) ∧
    (0 ≤ (300 : Int) ∧
     (({ id := "brex_cash_w1", date := some ⟨2025, 11, 22, 0⟩, amount := 300,
         currency := "USD", description := "W", type := TxType.expense,
         category := "Cash Transaction", account := "Brex", reference := "w1",
         initiatedBy := "Brex", paymentMethod := "ACH/Wire",
         status := "Finalized",
         brexData := some
           { originalId := "w1", dataType := "cash", paymentType := "" } :
         Transaction }).account = "Brex" →
       0 < ({ id := "brex_cash_w1", date := some ⟨2025, 11, 22, 0⟩,
              amount := 300, currency := "USD", description := "W",
              type := TxType.expense, category := "Cash Transaction",
              account := "Brex", reference := "w1", initiatedBy := "Brex",
              paymentMethod := "ACH/Wire", status := "Finalized",
              brexData := some
                { originalId := "w1", dataType := "cash",
                  paymentType := "" } : Transaction }).amount)) :=
  ⟨by decide,
   c9_amount_sign_amended.1
     { cashPrimary := Except.ok
         [{ id := "w1", amountCents := 300,
            dateVal := DateVal.ok ⟨2025, 11, 22, 0⟩,
            counterparty_name := "W" }],
       cash := Except.error (), transfers := Except.error (),
       card := Except.error () }
     { id := "brex_cash_w1", date := some ⟨2025, 11, 22, 0⟩, amount := 300,
       currency := "USD", description := "W", type := TxType.expense,
       category := "Cash Transaction", account := "Brex", reference := "w1",
       initiatedBy := "Brex", paymentMethod := "ACH/Wire",
       status := "Finalized",
       brexData := some
         { originalId := "w1", dataType := "cash", paymentType := "" } }
     (by decide)⟩

namespace TxSync

theorem le_of_not_ltB {a b : JSDate} (h : ¬ a.ltB b = true) :
    b.keyNum ≤ a.keyNum := by
  simp [JSDate.ltB] at h
  exact h

theorem anchorRange_dayOnly {d : JSDate} (h : dateInRange d) :
    anchorRange d.dayOnly := by
  obtain ⟨h1, h2, h3, h4, -⟩ := h
  exact ⟨h1, h2, h3, h4, rfl⟩

theorem sameDay_dayOnly (d : JSDate) : d.sameDay d.dayOnly = true := by
  simp [JSDate.sameDay, JSDate.dayOnly]

theorem eq_dayOnly_of_sameDay {d L : JSDate} (hsd : d.sameDay L = true)
    (hms : L.msOfDay = 0) : L = d.dayOnly := by
  obtain ⟨h1, h2, h3⟩ := sameDay_iff.mp hsd
  cases L
  simp_all [JSDate.dayOnly]

/-- If a transaction instant is not strictly before a midnight anchor and the
    anchor is not past the midnight of the transaction's own day, the anchor
    is exactly that midnight: distinct calendar-range midnights differ by at
    least a full day of key, and the transaction lies less than a day past
    its own midnight. -/
theorem anchor_day_squeeze {d L : JSDate} (hd : dateInRange d) (hL : anchorRange L)
    (h1 : L.keyNum ≤ d.keyNum) (h2 : d.dayOnly.keyNum ≤ L.keyNum) :
    L = d.dayOnly := by
  obtain ⟨hd1, hd2, hd3, hd4, hd5⟩ := hd
  obtain ⟨hL1, hL2, hL3, hL4, hL5⟩ := hL
  cases L with
  | mk ly lm ld lms =>
    cases d with
    | mk dy dm dd dms =>
      simp_all [JSDate.keyNum, JSDate.dayOnly, JSDate.mk.injEq]
      omega

theorem brexKeep_false_cases {info : LatestInfo} {t : Transaction} {d : JSDate}
    (hd : t.date = some d) (h : brexKeep info t = false) :
    ∃ L, info.latestDate = some L ∧
      (d.ltB L = true ∨
       (d.sameDay L = true ∧
        ∃ e ∈ info.existingFromLatestDate,
          e.date = formatDateDDMMYY d ∧ e.amount = amountValue t ∧
            e.description = toFrom t)) := by
  cases hL : info.latestDate with
  | none => simp [brexKeep, hL] at h
  | some L =>
    refine ⟨L, rfl, ?_⟩
    by_cases hlt : d.ltB L = true
    · exact Or.inl hlt
    · right
      by_cases hsd : d.sameDay L = true
      · refine ⟨hsd, ?_⟩
        have hlt2 : d.ltB L = false := by
          cases hb : d.ltB L
          · rfl
          · exact absurd hb hlt
        simp [brexKeep, hL, hd, hlt2, hsd, and_assoc] at h
        exact h
      · have hlt2 : d.ltB L = false := by
          cases hb : d.ltB L
          · rfl
          · exact absurd hb hlt
        have hsd2 : d.sameDay L = false := by
          cases hb : d.sameDay L
          · rfl
          · exact absurd hb hsd
        simp [brexKeep, hL, hd, hlt2, hsd2] at h

end TxSync

namespace TxSync

/-- The Brex row written for a transaction with a valid date, and the fact
    that getLatestTransactionInfo re-reads it to exactly the compared texts
    and the transaction's own calendar midnight, given the write-read
    round-trip conditions. -/
theorem brexRow_roundtrip {t : Transaction} {d : JSDate}
    (hd : t.date = some d) (hw : writeReadExact t d) :
    brexSheetRow t = some
      [ formatDateDDMMYY d, toFrom t, amountValue t, memoField t, "", "",
        jsOr t.initiatedBy "Client", jsOr t.paymentMethod "ACH/Wire",
        jsOr t.status "Finalized", if isFinalized t then "TRUE" else "FALSE" ] ∧
    parseRowBrex
      [ formatDateDDMMYY d, toFrom t, amountValue t, memoField t, "", "",
        jsOr t.initiatedBy "Client", jsOr t.paymentMethod "ACH/Wire",
        jsOr t.status "Finalized", if isFinalized t then "TRUE" else "FALSE" ] =
      some (⟨formatDateDDMMYY d, toFrom t, amountValue t⟩, d.dayOnly) := by
  obtain ⟨hp, htd, htf, hta⟩ := hw
  constructor
  · simp only [brexSheetRow, hd]
  · have hc0 : cell
        [ formatDateDDMMYY d, toFrom t, amountValue t, memoField t, "", "",
          jsOr t.initiatedBy "Client", jsOr t.paymentMethod "ACH/Wire",
          jsOr t.status "Finalized", if isFinalized t then "TRUE" else "FALSE" ]
        0 = formatDateDDMMYY d := rfl
    have hc1 : cell
        [ formatDateDDMMYY d, toFrom t, amountValue t, memoField t, "", "",
          jsOr t.initiatedBy "Client", jsOr t.paymentMethod "ACH/Wire",
          jsOr t.status "Finalized", if isFinalized t then "TRUE" else "FALSE" ]
        1 = toFrom t := rfl
    have hc2 : cell
        [ formatDateDDMMYY d, toFrom t, amountValue t, memoField t, "", "",
          jsOr t.initiatedBy "Client", jsOr t.paymentMethod "ACH/Wire",
          jsOr t.status "Finalized", if isFinalized t then "TRUE" else "FALSE" ]
        2 = amountValue t := rfl
    rw [parseRowBrex_of_cells
      (hc0 ▸ formatDateDDMMYY_ne_empty d)
      (hc1 ▸ toFrom_ne_empty t)
      (hc2 ▸ amountValue_ne_empty t)
      (by rw [hc0, htd, hp])]
    rw [hc0, hc1, hc2, htd, htf, hta]

theorem addTransactions_brex_eq (txs : List Transaction) (sheet : Sheet)
    (htxs : txs.length ≠ 0) :
    addTransactions "Auto_input.Brex" txs sheet true =
      (txs.length, sheet ++ txs.filterMap brexSheetRow) := by
  unfold addTransactions
  rw [if_neg htxs, if_neg (by decide), if_pos rfl]
  rfl

theorem addTransactions_stripe_eq (txs : List Transaction) (sheet : Sheet)
    (rows : List (List String)) (htxs : txs.length ≠ 0)
    (hrows : stripeSheetRows txs = some rows) :
    addTransactions "Auto_input.Stripe" txs sheet true =
      (txs.length, sheet ++ rows) := by
  unfold addTransactions
  rw [if_neg htxs, if_pos rfl, hrows]
  rfl

theorem syncSource_brex_done (n : String) (F : List Transaction) (S : Sheet)
    (ok : Bool) (hF : F.length ≠ 0)
    (hnil : (F.filter
      (brexKeep (getLatestTransactionInfo "Auto_input.Brex" S))).length = 0) :
    syncSource n F "Auto_input.Brex" S ok =
      ({ source := n, new := 0, total := F.length }, S,
       [SinkEffect.readLatestInfo]) := by
  simp only [syncSource, if_neg hF, if_pos rfl]
  simp [hnil]

theorem syncSource_brex_write (n : String) (F : List Transaction) (S : Sheet)
    (hF : F.length ≠ 0)
    (hN : (F.filter
      (brexKeep (getLatestTransactionInfo "Auto_input.Brex" S))).length ≠ 0) :
    syncSource n F "Auto_input.Brex" S true =
      ({ source := n,
         new := (sortByDate (F.filter
           (brexKeep (getLatestTransactionInfo "Auto_input.Brex" S)))).length,
         total := F.length },
       S ++ (sortByDate (F.filter
         (brexKeep (getLatestTransactionInfo "Auto_input.Brex" S)))).filterMap
           brexSheetRow,
       [SinkEffect.readLatestInfo, SinkEffect.append]) := by
  have hsort : (sortByDate (F.filter
      (brexKeep (getLatestTransactionInfo "Auto_input.Brex" S)))).length ≠ 0 := by
    rw [sortByDate, List.length_insertionSort]
    exact hN
  simp [syncSource, if_neg hF, if_neg hN, addTransactions_brex_eq _ _ hsort]
  have h1 : ¬ (F = []) := fun h => hF (by simp [h])
  have h2 : ¬ (∀ a ∈ F,
      brexKeep (getLatestTransactionInfo "Auto_input.Brex" S) a = false) := by
    intro hall
    apply hN
    have hnil : F.filter (brexKeep (getLatestTransactionInfo "Auto_input.Brex" S)) = [] :=
      List.filter_eq_nil_iff.mpr fun a ha => by simp [hall a ha]
    simp [hnil]
  rw [if_neg h1, if_neg h2]

theorem syncSource_stripe_done (n : String) (F : List Transaction) (S : Sheet)
    (ok : Bool) (hF : F.length ≠ 0)
    (hnil : (F.filter (idKeep (getExistingIds "Auto_input.Stripe" S))).length = 0) :
    syncSource n F "Auto_input.Stripe" S ok =
      ({ source := n, new := 0, total := F.length }, S,
       [SinkEffect.readExistingIds]) := by
  simp only [syncSource, if_neg hF, if_neg (by decide : ¬("Auto_input.Stripe" = "Auto_input.Brex"))]
  simp [hnil]

theorem syncSource_stripe_write (n : String) (F : List Transaction) (S : Sheet)
    (rows : List (List String)) (hF : F.length ≠ 0)
    (hN : (F.filter (idKeep (getExistingIds "Auto_input.Stripe" S))).length ≠ 0)
    (hrows : stripeSheetRows (sortByDate (F.filter
      (idKeep (getExistingIds "Auto_input.Stripe" S)))) = some rows) :
    syncSource n F "Auto_input.Stripe" S true =
      ({ source := n,
         new := (sortByDate (F.filter
           (idKeep (getExistingIds "Auto_input.Stripe" S)))).length,
         total := F.length },
       S ++ rows,
       [SinkEffect.readExistingIds, SinkEffect.append]) := by
  have hsort : (sortByDate (F.filter
      (idKeep (getExistingIds "Auto_input.Stripe" S)))).length ≠ 0 := by
    rw [sortByDate, List.length_insertionSort]
    exact hN
  simp [syncSource, if_neg hF, if_neg hN, addTransactions_stripe_eq _ _ rows hsort hrows]
  have h1 : ¬ (F = []) := fun h => hF (by simp [h])
  have h2 : ¬ (∀ a ∈ F,
      idKeep (getExistingIds "Auto_input.Stripe" S) a = false) := by
    intro hall
    apply hN
    have hnil : F.filter (idKeep (getExistingIds "Auto_input.Stripe" S)) = [] :=
      List.filter_eq_nil_iff.mpr fun a ha => by simp [hall a ha]
    simp [hnil]
  rw [if_neg h1, if_neg h2]

end TxSync

namespace TxSync

/-- The heart of Strategy-B idempotence: after a first Brex run writes its
    kept transactions, every fetched transaction is filtered out by a second
    run against the grown sheet — its day is never past the new anchor, and
    on the anchor day its exact written triple is found. -/
theorem brex_second_run_filter
    (F : List Transaction) (N : List Transaction) (rows1 : Sheet) (S : Sheet)
    (hNdef : N = F.filter (brexKeep (getLatestTransactionInfo "Auto_input.Brex" S)))
    (hrowsdef : rows1 = (sortByDate N).filterMap brexSheetRow)
    (hB : ∀ t ∈ F, ∃ d, t.date = some d ∧ dateInRange d ∧ writeReadExact t d)
    (hSB : ∀ r ∈ S, ∀ e p, parseRowBrex r = some (e, p) → anchorRange p)
    (hNne : N ≠ []) :
    ∀ t ∈ F,
      brexKeep (getLatestTransactionInfo "Auto_input.Brex" (S ++ rows1)) t =
        false := by
  have hP2 : (S ++ rows1).filterMap parseRowBrex =
      S.filterMap parseRowBrex ++ rows1.filterMap parseRowBrex :=
    List.filterMap_append S rows1 parseRowBrex
  have hrows_shape : ∀ r ∈ rows1, ∃ t ∈ F, ∃ d, t.date = some d ∧
      dateInRange d ∧ writeReadExact t d ∧ brexSheetRow t = some r := by
    intro r hr
    rw [hrowsdef] at hr
    obtain ⟨t0, ht0, hrow0⟩ := List.mem_filterMap.mp hr
    have ht0F : t0 ∈ F := by
      have := sortByDate_mem.mp ht0
      rw [hNdef] at this
      exact (List.mem_filter.mp this).1
    obtain ⟨d0, hd0, hin0, hw0⟩ := hB t0 ht0F
    exact ⟨t0, ht0F, d0, hd0, hin0, hw0, hrow0⟩
  have hrange : ∀ pr ∈ (S ++ rows1).filterMap parseRowBrex, anchorRange pr.2 := by
    intro pr hpr
    obtain ⟨r, hr, hparse⟩ := List.mem_filterMap.mp hpr
    rcases List.mem_append.mp hr with hrS | hrR
    · obtain ⟨e, p⟩ := pr
      exact hSB r hrS e p hparse
    · obtain ⟨t0, -, d0, hd0, hin0, hw0, hrow0⟩ := hrows_shape r hrR
      obtain ⟨hrowEq, hparse0⟩ := brexRow_roundtrip hd0 hw0
      rw [hrowEq] at hrow0
      injection hrow0 with hrow0
      rw [← hrow0] at hparse
      rw [hparse0] at hparse
      injection hparse with hparse
      rw [← hparse]
      exact anchorRange_dayOnly hin0
  have hpairs : ∀ t ∈ N, ∀ d, t.date = some d → writeReadExact t d →
      (⟨formatDateDDMMYY d, toFrom t, amountValue t⟩, d.dayOnly) ∈
        rows1.filterMap parseRowBrex := by
    intro t ht d hd hw
    obtain ⟨hrowEq, hparse⟩ := brexRow_roundtrip hd hw
    rw [hrowsdef]
    exact List.mem_filterMap.mpr
      ⟨_, List.mem_filterMap.mpr ⟨t, sortByDate_mem.mpr ht, hrowEq⟩, hparse⟩
  obtain ⟨t0, ht0⟩ := List.exists_mem_of_ne_nil N hNne
  have ht0F : t0 ∈ F := by
    rw [hNdef] at ht0
    exact (List.mem_filter.mp ht0).1
  obtain ⟨d0, hd0, hin0, hw0⟩ := hB t0 ht0F
  have hpair0 := hpairs t0 ht0 d0 hd0 hw0
  have hP2ne : (S ++ rows1).filterMap parseRowBrex ≠ [] := by
    rw [hP2]
    exact List.ne_nil_of_mem (List.mem_append_right _ hpair0)
  cases hL2case :
      (getLatestTransactionInfo "Auto_input.Brex" (S ++ rows1)).latestDate with
  | none => exact absurd ((latestInfo_spec (S ++ rows1)).1.mp hL2case) hP2ne
  | some L2 =>
    obtain ⟨hL2mem, hub, hE2⟩ := (latestInfo_spec (S ++ rows1)).2 L2 hL2case
    have hL2range : anchorRange L2 := by
      obtain ⟨pr, hpr, hsnd⟩ := List.mem_map.mp hL2mem
      exact hsnd ▸ hrange pr hpr
    have hubP : ∀ pr ∈ (S ++ rows1).filterMap parseRowBrex,
        pr.2.keyNum ≤ L2.keyNum := by
      intro pr hpr
      exact hub _ (List.mem_map_of_mem _ hpr)
    intro t ht
    obtain ⟨d, hd, hin, hw⟩ := hB t ht
    by_cases hlt : d.ltB L2 = true
    · simp [brexKeep, hL2case, hd, hlt]
    · have hge : L2.keyNum ≤ d.keyNum := le_of_not_ltB hlt
      have key : L2 = d.dayOnly ∧
          ∃ e ∈ (getLatestTransactionInfo "Auto_input.Brex"
            (S ++ rows1)).existingFromLatestDate,
            e.date = formatDateDDMMYY d ∧ e.amount = amountValue t ∧
              e.description = toFrom t := by
        by_cases htN : t ∈ N
        · have hpair := hpairs t htN d hd hw
          have hpairP2 : ((⟨formatDateDDMMYY d, toFrom t, amountValue t⟩ : ExRow),
              d.dayOnly) ∈ (S ++ rows1).filterMap parseRowBrex := by
            rw [hP2]
            exact List.mem_append_right _ hpair
          have hbound := hubP _ hpairP2
          have hL2eq : L2 = d.dayOnly := anchor_day_squeeze hin hL2range hge hbound
          refine ⟨hL2eq, ⟨formatDateDDMMYY d, toFrom t, amountValue t⟩, ?_,
            rfl, rfl, rfl⟩
          rw [hE2]
          refine List.mem_map.mpr ⟨_, List.mem_filter.mpr ⟨hpairP2, ?_⟩, rfl⟩
          rw [hL2eq]
          exact sameDay_dayOnly d.dayOnly
        · have hkeep1 :
              brexKeep (getLatestTransactionInfo "Auto_input.Brex" S) t = false := by
            cases hb : brexKeep (getLatestTransactionInfo "Auto_input.Brex" S) t with
            | false => rfl
            | true =>
              exfalso
              apply htN
              rw [hNdef]
              exact List.mem_filter.mpr ⟨ht, hb⟩
          obtain ⟨L1, hL1, hcase⟩ := brexKeep_false_cases hd hkeep1
          obtain ⟨hL1mem, -, hE1⟩ := (latestInfo_spec S).2 L1 hL1
          have hL1P2 : L1 ∈ ((S ++ rows1).filterMap parseRowBrex).map Prod.snd := by
            rw [hP2, List.map_append]
            exact List.mem_append_left _ hL1mem
          have hL1le : L1.keyNum ≤ L2.keyNum := hub L1 hL1P2
          have hL1range : anchorRange L1 := by
            obtain ⟨pr, hpr, hsnd⟩ := List.mem_map.mp hL1mem
            obtain ⟨r, hrS, hparse⟩ := List.mem_filterMap.mp hpr
            obtain ⟨e, p⟩ := pr
            exact hsnd ▸ hSB r hrS e p hparse
          rcases hcase with hlt1 | ⟨hsd1, e, he, hfields⟩
          · exfalso
            apply hlt
            rw [ltB_iff] at hlt1 ⊢
            omega
          · have hL1eq : L1 = d.dayOnly :=
              eq_dayOnly_of_sameDay hsd1 hL1range.2.2.2.2
            have hbound : d.dayOnly.keyNum ≤ L2.keyNum := hL1eq ▸ hL1le
            have hL2eq : L2 = d.dayOnly := anchor_day_squeeze hin hL2range hge hbound
            refine ⟨hL2eq, e, ?_, hfields⟩
            rw [hE1] at he
            obtain ⟨pr, hprfilter, hfst⟩ := List.mem_map.mp he
            have hprP : pr ∈ S.filterMap parseRowBrex :=
              (List.mem_filter.mp hprfilter).1
            have hprsd : pr.2.sameDay L1 = true := (List.mem_filter.mp hprfilter).2
            rw [hE2]
            refine List.mem_map.mpr ⟨pr, List.mem_filter.mpr ⟨?_, ?_⟩, hfst⟩
            · rw [hP2]
              exact List.mem_append_left _ hprP
            · rw [hL2eq, ← hL1eq]
              exact hprsd
      obtain ⟨hL2eq, e, heE2, hf1, hf2, hf3⟩ := key
      have hsd : d.sameDay L2 = true := by
        rw [hL2eq]
        exact sameDay_dayOnly d
      have hltf : d.ltB L2 = false := by
        cases hb : d.ltB L2 with
        | false => rfl
        | true => exact absurd hb hlt
      simp [brexKeep, hL2case, hd, hltf, hsd]
      exact ⟨e, heE2, ⟨hf1, hf2⟩, hf3⟩

end TxSync

namespace TxSync

theorem getExistingIds_stripe_append (S R : Sheet) :
    getExistingIds "Auto_input.Stripe" (S ++ R) =
      getExistingIds "Auto_input.Stripe" S ++
        getExistingIds "Auto_input.Stripe" R := by
  simp [getExistingIds, List.filterMap_append]

theorem mem_getExistingIds_stripe {R : Sheet} {idv : String} (hne : idv ≠ "")
    (h : idv ∈ R.map fun r => cell r 0) :
    idv ∈ getExistingIds "Auto_input.Stripe" R := by
  obtain ⟨r, hr, hcell⟩ := List.mem_map.mp h
  unfold getExistingIds
  rw [if_pos rfl]
  refine List.mem_filterMap.mpr ⟨r, hr, ?_⟩
  rw [if_pos (hcell ▸ hne), hcell]

/-- The heart of Strategy-A idempotence: after a first Stripe run appends its
    kept rows (whose first cells are the transaction ids), every fetched
    transaction id is found in the grown id column, so the second run's
    filter keeps nothing. -/
theorem stripe_second_run_filter
    (F N : List Transaction) (rows : Sheet) (S : Sheet)
    (hNdef : N = F.filter (idKeep (getExistingIds "Auto_input.Stripe" S)))
    (hid : ∀ t ∈ F, t.id ≠ "")
    (hmap : ∀ t ∈ sortByDate N, t.id ∈ rows.map fun r => cell r 0) :
    ∀ t ∈ F, idKeep (getExistingIds "Auto_input.Stripe" (S ++ rows)) t = false := by
  intro t ht
  have hmem : t.id ∈ getExistingIds "Auto_input.Stripe" (S ++ rows) := by
    by_cases hkeep : t.id ∈ getExistingIds "Auto_input.Stripe" S
    · rw [getExistingIds_stripe_append]
      exact List.mem_append_left _ hkeep
    · have htN : t ∈ N := by
        rw [hNdef]
        refine List.mem_filter.mpr ⟨ht, ?_⟩
        simp [idKeep]
        exact hkeep
      have hm := hmap t (sortByDate_mem.mpr htN)
      rw [getExistingIds_stripe_append]
      exact List.mem_append_right _ (mem_getExistingIds_stripe (hid t ht) hm)
  simp [idKeep]
  exact hmem

end TxSync

/-- C3 counterexample: with a Brex transaction dated 2050-01-01 and an empty
    sheet, the first run writes it as "01/01/50", which the second run
    re-parses to 1950-01-01 under the pivot-50 rule; the transaction is then
    strictly after the anchor and is re-offered, so the second run reports
    newCount 1, not 0 — the claim fails as stated. -/
theorem c3_counterexample_year_2050 :
    (syncSource "brex"
        [{ id := "brex_cash_z", date := some ⟨2050, 1, 1, 0⟩, amount := 100,
           currency := "USD", description := "Future", type := TxType.expense,
           account := "Brex" }]
        "Auto_input.Brex" [] true).1.new = 1 ∧
    (syncSource "brex"
        [{ id := "brex_cash_z", date := some ⟨2050, 1, 1, 0⟩, amount := 100,
           currency := "USD", description := "Future", type := TxType.expense,
           account := "Brex" }]
        "Auto_input.Brex"
        (syncSource "brex"
          [{ id := "brex_cash_z", date := some ⟨2050, 1, 1, 0⟩, amount := 100,
             currency := "USD", description := "Future", type := TxType.expense,
             account := "Brex" }]
          "Auto_input.Brex" [] true).2.1 true).1.new = 1 := by
  exact ⟨by decide, by decide⟩

/-- C3 amended: a second run over the same provider data reports newCount 0
    for both strategies, provided the write of the first run is durable and
    re-readable: for Strategy A every fetched transaction needs a non-empty
    id and a valid date (so the row build does not throw); for Strategy B
    every fetched transaction needs a valid calendar date whose written
    dd/mm/yy, amount and description cell texts round-trip through the sheet
    exactly (true for years 1950..2049 other than 2000 with trim-stable
    description strings — a transaction dated outside that range, e.g. 2050,
    is re-offered, as the counterexample shows), and the pre-existing sheet
    rows must parse to calendar-range dates. -/
theorem c3_idempotent_second_run_amended
    (fetchedA : List Transaction) (sheetA : Sheet)
    (hidA : ∀ t ∈ fetchedA, t.id ≠ "")
    (hdA : ∀ t ∈ fetchedA, t.date ≠ none)
    (fetchedB : List Transaction) (sheetB : Sheet)
    (hB : ∀ t ∈ fetchedB, ∃ d, t.date = some d ∧ dateInRange d ∧
      writeReadExact t d)
    (hSB : ∀ r ∈ sheetB, ∀ e p, parseRowBrex r = some (e, p) → anchorRange p) :
    (syncSource "stripe" fetchedA "Auto_input.Stripe"
        (syncSource "stripe" fetchedA "Auto_input.Stripe" sheetA true).2.1
        true).1.new = 0 ∧
    (syncSource "brex" fetchedB "Auto_input.Brex"
        (syncSource "brex" fetchedB "Auto_input.Brex" sheetB true).2.1
        true).1.new = 0 := by
  constructor
  · by_cases hFA : fetchedA = []
    · subst hFA
      rfl
    · have hFAlen : fetchedA.length ≠ 0 := fun h => hFA (List.length_eq_zero.mp h)
      by_cases hN : (fetchedA.filter
          (idKeep (getExistingIds "Auto_input.Stripe" sheetA))).length = 0
      · rw [syncSource_stripe_done "stripe" fetchedA sheetA true hFAlen hN]
        dsimp only
        rw [syncSource_stripe_done "stripe" fetchedA sheetA true hFAlen hN]
      · obtain ⟨rows, hrows, -, hmap0⟩ := stripeSheetRows_spec
          (sortByDate (fetchedA.filter
            (idKeep (getExistingIds "Auto_input.Stripe" sheetA))))
          (fun t ht => hdA t (List.mem_filter.mp (sortByDate_mem.mp ht)).1)
        rw [syncSource_stripe_write "stripe" fetchedA sheetA rows hFAlen hN hrows]
        dsimp only
        have hkill := stripe_second_run_filter fetchedA _ rows sheetA rfl hidA hmap0
        have hN2 : (fetchedA.filter
            (idKeep (getExistingIds "Auto_input.Stripe" (sheetA ++ rows)))).length = 0 := by
          have hnil : fetchedA.filter
              (idKeep (getExistingIds "Auto_input.Stripe" (sheetA ++ rows))) = [] :=
            List.filter_eq_nil_iff.mpr fun a ha => by simp [hkill a ha]
          simp [hnil]
        rw [syncSource_stripe_done "stripe" fetchedA (sheetA ++ rows) true hFAlen hN2]
  · by_cases hFB : fetchedB = []
    · subst hFB
      rfl
    · have hFBlen : fetchedB.length ≠ 0 := fun h => hFB (List.length_eq_zero.mp h)
      by_cases hNB : (fetchedB.filter
          (brexKeep (getLatestTransactionInfo "Auto_input.Brex" sheetB))).length = 0
      · rw [syncSource_brex_done "brex" fetchedB sheetB true hFBlen hNB]
        dsimp only
        rw [syncSource_brex_done "brex" fetchedB sheetB true hFBlen hNB]
      · rw [syncSource_brex_write "brex" fetchedB sheetB hFBlen hNB]
        dsimp only
        have hkill := brex_second_run_filter fetchedB
          (fetchedB.filter (brexKeep (getLatestTransactionInfo "Auto_input.Brex" sheetB)))
          ((sortByDate (fetchedB.filter
            (brexKeep (getLatestTransactionInfo "Auto_input.Brex" sheetB)))).filterMap
              brexSheetRow)
          sheetB rfl rfl hB hSB
          (fun h => hNB (by simp [h]))
        have hN2 : (fetchedB.filter
            (brexKeep (getLatestTransactionInfo "Auto_input.Brex"
              (sheetB ++ (sortByDate (fetchedB.filter
                (brexKeep (getLatestTransactionInfo "Auto_input.Brex" sheetB)))).filterMap
                  brexSheetRow)))).length = 0 := by
          have hnil : fetchedB.filter
              (brexKeep (getLatestTransactionInfo "Auto_input.Brex"
                (sheetB ++ (sortByDate (fetchedB.filter
                  (brexKeep (getLatestTransactionInfo "Auto_input.Brex" sheetB)))).filterMap
                    brexSheetRow))) = [] :=
            List.filter_eq_nil_iff.mpr fun a ha => by simp [hkill a ha]
          simp [hnil]
        rw [syncSource_brex_done "brex" fetchedB _ true hFBlen hN2]

theorem c3_idempotent_second_run_amended_witness :
    ((∀ t ∈ [({ id := "ch_1", date := some ⟨2025, 11, 20, 0⟩, amount := 1500, currency := "USD", description := "Stripe charge", type := TxType.income, account := "Stripe" : Transaction })], t.id ≠ "") ∧
     (∀ t ∈ [({ id := "brex_cash_9", date := some ⟨2025, 11, 20, 3600000⟩, amount := 250075, currency := "USD", description := "ACME LLC", type := TxType.expense, account := "Brex", memo := "wire out" : Transaction })], ∃ d, t.date = some d ∧ dateInRange d ∧ writeReadExact t d)) ∧
    ((syncSource "stripe" [({ id := "ch_1", date := some ⟨2025, 11, 20, 0⟩, amount := 1500, currency := "USD", description := "Stripe charge", type := TxType.income, account := "Stripe" : Transaction })] "Auto_input.Stripe" (syncSource "stripe" [({ id := "ch_1", date := some ⟨2025, 11, 20, 0⟩, amount := 1500, currency := "USD", description := "Stripe charge", type := TxType.income, account := "Stripe" : Transaction })] "Auto_input.Stripe" [] true).2.1 true).1.new = 0 ∧
     (syncSource "brex" [({ id := "brex_cash_9", date := some ⟨2025, 11, 20, 3600000⟩, amount := 250075, currency := "USD", description := "ACME LLC", type := TxType.expense, account := "Brex", memo := "wire out" : Transaction })] "Auto_input.Brex" (syncSource "brex" [({ id := "brex_cash_9", date := some ⟨2025, 11, 20, 3600000⟩, amount := 250075, currency := "USD", description := "ACME LLC", type := TxType.expense, account := "Brex", memo := "wire out" : Transaction })] "Auto_input.Brex" [] true).2.1 true).1.new = 0) :=
  ⟨⟨by decide,
    by
      intro t ht
      simp at ht
      subst ht
      exact ⟨⟨2025, 11, 20, 3600000⟩, rfl, by decide, by decide⟩⟩,
   c3_idempotent_second_run_amended _ [] (by decide) (by decide) _ []
     (by
       intro t ht
       simp at ht
       subst ht
       exact ⟨⟨2025, 11, 20, 3600000⟩, rfl, by decide, by decide⟩)
     (by simp)⟩
